import Mathlib

/-!
# Sense-Think-Act robot controller (`src/main.cpp`)

A shallow embedding of the behaviour arbiter, the three controllers and the
`loop()` state machine of `src/main.cpp`, followed by theorems about them.

Modelling conventions

* The global variables of the sketch are the fields of `RobotState`.
* C `float` values are the rationals that binary32 can represent.  Every
  `float` operation of the source (`ref - meas`, `iEt += eT_deltaT`, the
  products and sums of `controlLaw`, `distance * CM_TO_INCHES`) is the exact
  operation followed by `f32`, rounding to the nearest binary32 value with
  ties to even.  NaN, infinities and magnitudes beyond the binary32 range
  are not modelled.
* Comparisons are exact.  The literals 0.5, 5.75, 6.25, 10 and 20.0 are
  binary32 values; 0.1 and 0.2 are not, but they are only compared with
  magnitudes of `float` results, and for those the comparison with the
  literal, with its binary32 value and with its binary64 value agree
  (`threshold_exact`).
* What depends on the C implementation is a `Target`: the width of `int`
  and whether `double` is binary64 or, as on the ATmega32U4 that the sketch
  is written for, binary32.  The latter only matters for
  `distance * CM_TO_INCHES`, a product with a `double` literal.
* `uint8_t behaviorState` is a `Nat` (below 256 in every well-formed state);
  `int` variables are `Int`, and the one `int` that is incremented,
  `testIteration`, is wrapped to the width of the target's `int`.
* The hardware services are external.  What they answer during one call of
  `loop()` is a `TickInput`; what is asked of them is recorded, in order, as
  a list of `Event`s returned next to the new state.  Diagnostic `Serial`
  output is not modelled.
* Entering a controller is recorded by the bookkeeping event `Event.enter`,
  which carries the value of `behaviorState` at the moment of the call.
-/

namespace Robot

/-! ## Constants (`#define`s of `main.cpp`) -/

def STATE_BEGIN : Int := 1
def STATE_SENSE : Int := 2
def STATE_THINK : Int := 3
def STATE_ACT : Int := 4
def STATE_END : Int := 5

def CM_TO_INCHES : ℚ := 0.393701

def WANDER_ANGLE : Nat := 360
def WANDER_TURN_RATE : ℚ := 15
def WANDER_SPEED : ℚ := 7
def WANDER_DIST : ℚ := 10

def WALL_FOLLOW_TURNANGLE : ℚ := 180
def WALL_FOLLOW_TURNRATE : ℚ := 15

def MASK_WALLFOLLOW : Nat := 0x04
def MASK_WANDER : Nat := 0x02
def MASK_APPROACH : Nat := 0x01

def WALL_FOLLOW_ARCH : Int := 1
def WALL_FOLLOW_TURN : Int := 2

def K_P : ℚ := 4.7
def K_I : ℚ := 0.01
def K_D : ℚ := 2.3

def NUM_ITERATIONS : Int := 50000

/-! ## Data model -/

/-- The three behaviour controllers. -/
inductive Controller where
  | approach
  | wallFollow
  | wander
  deriving DecidableEq

/-- What the program asks of the external services, plus the bookkeeping
event `enter c b`: controller `c` was called while `behaviorState = b`. -/
inductive Event where
  | driveFor (distance speed : ℚ) (block : Bool)
  | turnFor (angle rate : ℚ) (block : Bool)
  | moveArch (radius speed : ℚ) (block : Bool)
  | idle
  | getDistance
  | delay (ms : Nat)
  | enter (c : Controller) (flags : Nat)
  deriving DecidableEq

/-- The global variables of `main.cpp` (lines 72-97). -/
structure RobotState where
  state : Int
  wallFollowState : Int
  keyPress : Int
  behaviorState : Nat
  distance : ℚ
  inches : ℚ
  ref : ℚ
  meas : ℚ
  eT : ℚ
  eT_deltaT : ℚ
  ddt_eT : ℚ
  iEt : ℚ
  actuation : ℚ
  wanderActivated : Bool
  wallFollowActivated : Bool
  testIteration : Int
  deriving DecidableEq

/-- The initial values of the globals (lines 72-97). -/
def initialState : RobotState :=
  { state := STATE_BEGIN, wallFollowState := WALL_FOLLOW_ARCH, keyPress := 0,
    behaviorState := 0, distance := 0, inches := 0, ref := 6, meas := 0,
    eT := 0, eT_deltaT := 0, ddt_eT := 0, iEt := 0, actuation := 0,
    wanderActivated := false, wallFollowActivated := false,
    testIteration := 0 }

/-- The answers of the external services during one call of `loop()`:
`chassis.checkMotionComplete()`, `rand()`, and the first and second
`rangefinder.getDistance()` of the tick. -/
structure TickInput where
  motionComplete : Bool
  randValue : Nat
  reading1 : ℚ
  reading2 : ℚ
  deriving DecidableEq

/-! ## Helpers for machine arithmetic -/

/-- The library function `fabs`. -/
def fabs (x : ℚ) : ℚ := |x|

/-- Bit test `behaviorState & m` used as a C condition. -/
def maskSet (b m : Nat) : Bool := b &&& m != 0

/-- The update `behaviorState |= m`. -/
def setMask (b m : Nat) : Nat := b ||| m

/-- The update `behaviorState &= (~m)` on a `uint8_t`: the complement of
`m` within the eight bits that are stored back. -/
def clearMask (b m : Nat) : Nat := b &&& (255 - m)

/-- A value stored to a two's-complement `int` of `bits` bits. -/
def wrapInt (bits : Nat) (x : Int) : Int :=
  (x + 2 ^ (bits - 1)) % 2 ^ bits - 2 ^ (bits - 1)

/-! ## binary32 and binary64 arithmetic -/

/-- The recursion that computes `natLog2`, bounded by `fuel`. -/
def log2Fuel : Nat → Nat → Nat
  | 0, _ => 0
  | fuel + 1, n => if 2 ≤ n then log2Fuel fuel (n / 2) + 1 else 0

/-- The position of the leading bit of `n`: the floor of its binary
logarithm (0 for `n = 0`). -/
def natLog2 (n : Nat) : Nat := log2Fuel n n

/-- The binary exponent of a positive rational `r`: the integer `k` with
`2^k ≤ r < 2^(k+1)`. -/
def ilog2 (r : ℚ) : Int :=
  let k : Int := (natLog2 r.num.natAbs : Int) - (natLog2 r.den : Int)
  if (2 : ℚ) ^ k ≤ r then k else k - 1

/-- The integer nearest to `y`, the even one of the two when `y` is half-way
between them. -/
def roundHalfEven (y : ℚ) : Int :=
  let f := ⌊y⌋
  if y - f < 1 / 2 then f
  else if 1 / 2 < y - f then f + 1
  else if f % 2 = 0 then f
  else f + 1

/-- Rounding to the nearest value of a binary floating-point format with
`prec` significand bits and least normal exponent `emin`, ties to even,
subnormals included, exponent unbounded above. -/
def roundBinary (prec : Nat) (emin : Int) (x : ℚ) : ℚ :=
  if x = 0 then 0
  else
    let e := max (ilog2 |x|) emin
    (roundHalfEven (x / 2 ^ (e - (prec - 1 : Nat))) : ℚ) * 2 ^ (e - (prec - 1 : Nat))

/-- Rounding to binary32, the format of `float`. -/
def f32 (x : ℚ) : ℚ := roundBinary 24 (-126) x

/-- Rounding to binary64. -/
def f64 (x : ℚ) : ℚ := roundBinary 53 (-1022) x

/-- The `float` operation `a + b`. -/
def fadd (a b : ℚ) : ℚ := f32 (a + b)

/-- The `float` operation `a - b`. -/
def fsub (a b : ℚ) : ℚ := f32 (a - b)

/-- The `float` operation `a * b`. -/
def fmul (a b : ℚ) : ℚ := f32 (a * b)

/-- The properties of the C implementation that the program depends on:
the width of `int`, and whether `double` is binary64 (`true`) or has the
format of `float` (`false`). -/
structure Target where
  intBits : Nat
  wideDouble : Bool
  deriving DecidableEq

/-- The ATmega32U4 with avr-gcc, the target of the sketch
(`wpi-32u4-lib.h`): 16-bit `int`, `double` the same as `float`. -/
def atmega32u4 : Target := { intBits := 16, wideDouble := false }

/-- A target with 32-bit `int` and binary64 `double`. -/
def wideTarget : Target := { intBits := 32, wideDouble := true }

/-- Rounding to the target's `double`. -/
def Target.dbl (t : Target) (x : ℚ) : ℚ := if t.wideDouble then f64 x else f32 x

/-- The expression `distance * CM_TO_INCHES` stored to a `float` (lines 201
and 385): the `float` operand is promoted to `double`, multiplied by the
`double` literal, and the product is converted to `float`. -/
def inchesOf (t : Target) (distance : ℚ) : ℚ :=
  f32 (t.dbl (distance * t.dbl CM_TO_INCHES))

/-- Events that are motion commands to the chassis. -/
def Event.isMotion : Event → Bool
  | .driveFor _ _ _ => true
  | .turnFor _ _ _ => true
  | .moveArch _ _ _ => true
  | .idle => true
  | _ => false

/-- The motion commands of a trace, in order. -/
def motionCommands (t : List Event) : List Event := t.filter Event.isMotion

/-- The controllers entered in a trace, in order. -/
def calls : List Event → List Controller
  | [] => []
  | .enter c _ :: t => c :: calls t
  | _ :: t => calls t

/-- The values of `behaviorState` at the controller entries of a trace. -/
def entryFlags : List Event → List Nat
  | [] => []
  | .enter _ b :: t => b :: entryFlags t
  | _ :: t => entryFlags t

/-! ## Controllers -/

/-- One pass through the `while(true)` of `wallFollowController` (lines
151-165), continued until the `break`.  Returns the final state, the events
and the number of times the body of the `if` ran. -/
def wallFollowLoop (s : RobotState) : RobotState × List Event × Nat :=
  if h : maskSet s.behaviorState MASK_WALLFOLLOW = true then
    let r := wallFollowLoop
      { s with behaviorState := clearMask s.behaviorState MASK_WALLFOLLOW }
    (r.1,
     Event.turnFor WALL_FOLLOW_TURNANGLE WALL_FOLLOW_TURNRATE true ::
       Event.moveArch 10 25 true :: r.2.1,
     r.2.2 + 1)
  else
    (s, [], 0)
termination_by s.behaviorState &&& MASK_WALLFOLLOW
decreasing_by
  simp only [maskSet, bne_iff_ne, ne_eq] at h
  have h0 : clearMask s.behaviorState MASK_WALLFOLLOW &&& MASK_WALLFOLLOW = 0 := by
    have h1 : (255 - 4) &&& 4 = 0 := by decide
    simp only [clearMask, MASK_WALLFOLLOW, Nat.and_assoc, h1, Nat.and_zero]
  show clearMask s.behaviorState MASK_WALLFOLLOW &&& MASK_WALLFOLLOW
    < s.behaviorState &&& MASK_WALLFOLLOW
  rw [h0]
  exact Nat.pos_of_ne_zero h

/-- `wallFollowController` (lines 150-166). -/
def wallFollowController (s : RobotState) : RobotState × List Event :=
  let r := wallFollowLoop s
  (r.1, Event.enter Controller.wallFollow s.behaviorState :: r.2.1)

/-- `wanderController` (lines 176-211). -/
def wanderController (t : Target) (s : RobotState) (i : TickInput) :
    RobotState × List Event :=
  let turnAngle : ℚ := ((i.randValue % WANDER_ANGLE : Nat) : ℚ)
  let s0 := { s with distance := 0 }
  if maskSet s0.behaviorState MASK_WANDER then
    let s1 := { s0 with distance := i.reading1 }
    let s2 := { s1 with distance := i.reading2 }
    let s3 := { s2 with inches := inchesOf t s2.distance }
    if s3.inches < 20.0 then
      ({ s3 with behaviorState := clearMask s3.behaviorState MASK_WANDER },
       [Event.enter Controller.wander s.behaviorState,
        Event.turnFor turnAngle WANDER_TURN_RATE true,
        Event.getDistance, Event.delay 10, Event.getDistance])
    else
      ({ s3 with behaviorState := clearMask s3.behaviorState MASK_WANDER },
       [Event.enter Controller.wander s.behaviorState,
        Event.turnFor turnAngle WANDER_TURN_RATE true,
        Event.getDistance, Event.delay 10, Event.getDistance,
        Event.driveFor WANDER_DIST WANDER_SPEED true])
  else
    (s0, [Event.enter Controller.wander s.behaviorState])

/-- `controlLaw` (lines 218-222), reading the globals from `s`: two
`float` additions of three `float` products, left to right. -/
def controlLaw (s : RobotState) (Kp Ki Kd : ℚ) : ℚ :=
  fadd (fadd (fmul Kp s.eT_deltaT) (fmul Ki s.iEt)) (fmul Kd s.ddt_eT)

/-- Lines 230-233 of `approachController`: shift the error history. -/
def approachError (s : RobotState) : RobotState :=
  let s1 := { s with eT := s.eT_deltaT }
  let s2 := { s1 with eT_deltaT := fsub s1.ref s1.meas }
  { s2 with ddt_eT := fsub s2.eT_deltaT s2.eT }

/-- Lines 247-251 of `approachController`: the anti-windup step. -/
def approachIntegral (s : RobotState) : RobotState :=
  if fabs s.actuation > 10 then { s with iEt := 0 }
  else { s with iEt := fadd s.iEt s.eT_deltaT }

/-- `approachController` (lines 229-299).  The gains reach `controlLaw` as
`float` parameters, `f32 K_P` and so on; that conversion of the `double`
literals gives the same values whether `double` is binary32 or binary64
(`gains_conversion`). -/
def approachController (s : RobotState) : RobotState × List Event :=
  let s1 := approachError s
  if maskSet s1.behaviorState MASK_APPROACH ∧ fabs s1.eT_deltaT > 0.5 then
    let s2 := approachIntegral s1
    let s3 := { s2 with actuation := controlLaw s2 (f32 K_P) (f32 K_I) (f32 K_D) }
    if fabs s3.actuation < 0.2 ∨ fabs s3.eT_deltaT < 0.1 then
      ({ s3 with actuation := 0, eT_deltaT := 0, eT := 0 },
       [Event.enter Controller.approach s.behaviorState, Event.idle])
    else if s3.actuation < 0 then
      (s3, [Event.enter Controller.approach s.behaviorState,
            Event.driveFor 1 s3.actuation false])
    else
      (s3, [Event.enter Controller.approach s.behaviorState,
            Event.driveFor (-1) s3.actuation false])
  else
    (s1, [Event.enter Controller.approach s.behaviorState])

/-! ## The arbiter and `loop()` -/

/-- The APPROACH condition of line 411. -/
def approachBand (m : ℚ) : Bool :=
  (m ≤ 20.0 ∧ m > 6.25) ∨ (m ≤ 20.0 ∧ m < 5.75)

/-- The WALLFOLLOW condition of line 419. -/
def wallFollowBand (m : ℚ) : Bool := 5.75 ≤ m ∧ m ≤ 6.25

/-- The WANDER condition of line 427. -/
def wanderBand (m : ℚ) : Bool := m > 20.0

/-- The behaviour arbiter: the `if / else if` chain of lines 411-432, run
when `checkMotionComplete()` answered true. -/
def arbiter (t : Target) (s : RobotState) (i : TickInput) : RobotState × List Event :=
  if approachBand s.meas then
    let r := approachController
      { s with behaviorState := setMask s.behaviorState MASK_APPROACH }
    ({ r.1 with behaviorState := clearMask r.1.behaviorState MASK_APPROACH }, r.2)
  else if wallFollowBand s.meas then
    wallFollowController
      { s with behaviorState := setMask s.behaviorState MASK_WALLFOLLOW }
  else if wanderBand s.meas then
    wanderController t
      { s with behaviorState := setMask s.behaviorState MASK_WANDER } i
  else
    (s, [])

/-- One call of `loop()` (lines 343-455) on target `t`. -/
def loop (t : Target) (s : RobotState) (i : TickInput) : RobotState × List Event :=
  if s.state = STATE_BEGIN then
    ({ s with behaviorState := 0, testIteration := 0, meas := 0, eT := 0,
              eT_deltaT := 0, ddt_eT := 0, iEt := 0,
              wallFollowState := WALL_FOLLOW_ARCH, state := STATE_SENSE }, [])
  else if s.state = STATE_SENSE then
    ({ s with distance := i.reading2, state := STATE_THINK },
     [Event.getDistance, Event.delay 100, Event.getDistance])
  else if s.state = STATE_THINK then
    ({ s with inches := inchesOf t s.distance,
              meas := inchesOf t s.distance, state := STATE_ACT }, [])
  else if s.state = STATE_ACT then
    let r := if i.motionComplete then arbiter t s i else (s, [Event.delay 5])
    let n := wrapInt t.intBits (r.1.testIteration + 1)
    ({ r.1 with testIteration := n,
                state := if n < NUM_ITERATIONS then STATE_SENSE else STATE_END },
     r.2)
  else if s.state = STATE_END then
    (s, [Event.idle])
  else
    (s, [])

/-- Successive calls of `loop()`, one per input, with the events of all the
calls in order. -/
def run (t : Target) (s : RobotState) : List TickInput → RobotState × List Event
  | [] => (s, [])
  | i :: is =>
    let r := loop t s i
    let r2 := run t r.1 is
    (r2.1, r.2 ++ r2.2)

/-! ## Concrete states and inputs used to exercise the theorems -/

/-- The initial globals, about to run `STATE_ACT` with measurement `m`. -/
def actState (m : ℚ) : RobotState :=
  { initialState with state := STATE_ACT, meas := m }

/-- Motion reported complete; `rand()` gives 1234; both readings are `d`. -/
def completeInput (d : ℚ) : TickInput :=
  { motionComplete := true, randValue := 1234, reading1 := d, reading2 := d }

/-- Motion reported not complete. -/
def busyInput : TickInput :=
  { motionComplete := false, randValue := 1234, reading1 := 50, reading2 := 50 }

/-- A state in `STATE_BEGIN` whose globals all hold non-zero values. -/
def dirtyBegin : RobotState :=
  { state := STATE_BEGIN, wallFollowState := WALL_FOLLOW_TURN, keyPress := 7,
    behaviorState := 7, distance := 30, inches := 12, ref := 6, meas := 12,
    eT := 3, eT_deltaT := -2, ddt_eT := -5, iEt := 4, actuation := -11,
    wanderActivated := true, wallFollowActivated := true,
    testIteration := 41 }

/-- A state with `MASK_APPROACH` set, `ref = 6`, `meas = 6` and a non-zero
control-error history. -/
def atSetpoint : RobotState :=
  { initialState with behaviorState := MASK_APPROACH, meas := 6,
                      eT := 1, eT_deltaT := 3, ddt_eT := 2, iEt := 2, actuation := 5 }

/-- A state with `MASK_APPROACH` set, `meas = 8`, accumulated integral 4 and
previous actuation `a`. -/
def windupState (a : ℚ) : RobotState :=
  { initialState with behaviorState := MASK_APPROACH, meas := 8,
                      eT_deltaT := -1, iEt := 4, actuation := a }

/-- A state with `MASK_WANDER` and `MASK_WALLFOLLOW` set. -/
def wanderState : RobotState :=
  { initialState with behaviorState := 6, meas := 25 }

/-- The inputs of successive Sense-Think-Act cycles, one triple (SENSE
tick, THINK tick, ACT tick) per cycle. -/
def cycleInputs : List (TickInput × TickInput × TickInput) → List TickInput
  | [] => []
  | c :: cs => c.1 :: c.2.1 :: c.2.2 :: cycleInputs cs

/-- A SENSE-tick input whose retained reading is `d` centimetres. -/
def senseInput (d : ℚ) : TickInput :=
  { motionComplete := false, randValue := 0, reading1 := 0, reading2 := d }

/-- The `float` reading 63.49996566772461, which `inchesOf` converts to
exactly 25 on both kinds of target. -/
def reading25 : ℚ := 16646135 / 262144

/-- The `float` reading 20.319990158081055, which `inchesOf` converts to
exactly 8 on both kinds of target. -/
def reading8 : ℚ := 10653527 / 524288

/-- The `float` reading 15.239992141723633, which `inchesOf` converts to
exactly 6 on both kinds of target. -/
def reading6 : ℚ := 7990145 / 524288

/-- The first fifteen ticks of the scenario with measurements 25, 25, 8, 6,
6: BEGIN, four full cycles, and the SENSE and THINK ticks of the fifth. -/
def scenarioHead : List TickInput :=
  [busyInput,
   senseInput reading25, busyInput, completeInput 100,
   senseInput reading25, busyInput, completeInput 100,
   senseInput reading8, busyInput, completeInput 100,
   senseInput reading6, busyInput, completeInput 100,
   senseInput reading6, busyInput]

/-- The sixteen ticks of the scenario: `scenarioHead` and the fifth ACT
tick. -/
def scenario : List TickInput := scenarioHead ++ [completeInput 100]

/-! ## Reference definitions for `approachController` -/

/-- The actuation that `controlLaw` returns inside `approachController`
when it acts: the control law on the state left by the error shift and the
anti-windup step, with the gains as `float` parameters. -/
def pidValue (s : RobotState) : ℚ :=
  controlLaw (approachIntegral (approachError s)) (f32 K_P) (f32 K_I) (f32 K_D)

/-- The PID value of the specification in exact arithmetic:
`4.7*e + 0.01*I + 2.3*(e - e_prev)` with `e = ref - meas`, `e_prev` the
entry value of `eT_deltaT` and `I` the integral accumulator after the
anti-windup step, all as real numbers. -/
def pidReal (s : RobotState) : ℚ :=
  4.7 * (s.ref - s.meas)
    + 0.01 * (if fabs s.actuation > 10 then 0 else s.iEt + (s.ref - s.meas))
    + 2.3 * ((s.ref - s.meas) - s.eT_deltaT)

/-- The controller `approachController` with the test of line 279 reduced
to its first disjunct, `fabs(actuation) < 0.2`; everything else as in the
source. -/
def approachControllerFirstDisjunct (s : RobotState) : RobotState × List Event :=
  let s1 := approachError s
  if maskSet s1.behaviorState MASK_APPROACH ∧ fabs s1.eT_deltaT > 0.5 then
    let s2 := approachIntegral s1
    let s3 := { s2 with actuation := controlLaw s2 (f32 K_P) (f32 K_I) (f32 K_D) }
    if fabs s3.actuation < 0.2 then
      ({ s3 with actuation := 0, eT_deltaT := 0, eT := 0 },
       [Event.enter Controller.approach s.behaviorState, Event.idle])
    else if s3.actuation < 0 then
      (s3, [Event.enter Controller.approach s.behaviorState,
            Event.driveFor 1 s3.actuation false])
    else
      (s3, [Event.enter Controller.approach s.behaviorState,
            Event.driveFor (-1) s3.actuation false])
  else
    (s1, [Event.enter Controller.approach s.behaviorState])

/-! ## Concrete states for `approachController` -/

/-- A state with `MASK_APPROACH` set, `meas = 5` and previous error 3, for
which the control law gives 230687/2097152, about 0.11. -/
def convergeState : RobotState :=
  { initialState with behaviorState := MASK_APPROACH, meas := 5, eT_deltaT := 3 }

/-- A state with `MASK_APPROACH` set, measurement `m` and the control-error
variables at their reset value 0. -/
def freshApproach (m : ℚ) : RobotState :=
  { initialState with behaviorState := MASK_APPROACH, meas := m }

/-- The state in which `approachController` is called a second time, with
`meas = 8`, after a first call on `freshApproach 12`. -/
def secondCallState : RobotState :=
  { (approachController (freshApproach 12)).1 with meas := 8 }

/-- A state with `MASK_APPROACH` set, `meas = 5` and the `float` value
`1 + 2^(-23)` in `iEt`. -/
def roundingState : RobotState :=
  { initialState with behaviorState := MASK_APPROACH, meas := 5,
                      iEt := 8388609 / 8388608 }

/-- The `float` reading 50.79997253417969, whose exact product with
0.393701 is below 20 while `inchesOf` gives exactly 20. -/
def readingNear20 : ℚ := 3329227 / 65536

/-- The first three ticks from the initial globals, with a range reading
that converts to exactly 8 inches: BEGIN, SENSE, THINK.  They end in
`STATE_ACT` with `meas = 8`. -/
def approachTicks : List TickInput := [busyInput, senseInput reading8, busyInput]

/-! ## The schedule of `loop()` -/

/-- The loop state after `n` calls of `loop()` from `STATE_BEGIN` as long as
`STATE_END` is not reached: BEGIN, then SENSE, THINK, ACT in rotation. -/
def cycleState (n : Nat) : Int :=
  if n = 0 then STATE_BEGIN
  else if (n - 1) % 3 = 0 then STATE_SENSE
  else if (n - 1) % 3 = 1 then STATE_THINK
  else STATE_ACT

/-- The loop state after `n` calls of `loop()` from `STATE_BEGIN` according
to the specification: the rotation of `cycleState` up to the 50000th ACT
tick, which is call number `3 * 50000 + 1`, and `STATE_END` from then on. -/
def scheduleState (n : Nat) : Int :=
  if 150001 ≤ n then STATE_END else cycleState n

/-- The value of `testIteration` after `n` calls of `loop()` from
`STATE_BEGIN` according to the specification: the number of ACT ticks so
far, at most 50000. -/
def scheduleIteration (n : Nat) : Int :=
  if 150001 ≤ n then 50000 else (((n - 1) / 3 : Nat) : Int)

/-! ## Lemmas about the floating-point operations -/

theorem log2Fuel_spec : ∀ (fuel n : Nat), n ≤ fuel → n ≠ 0 →
    2 ^ log2Fuel fuel n ≤ n ∧ n < 2 ^ (log2Fuel fuel n + 1)
  | 0, n, h, h0 => absurd (Nat.le_zero.mp h) h0
  | fuel + 1, n, h, h0 => by
    unfold log2Fuel
    by_cases h2 : 2 ≤ n
    · simp only [h2, if_true]
      have hd : n / 2 ≤ fuel := by omega
      have hd0 : n / 2 ≠ 0 := by omega
      obtain ⟨a, b⟩ := log2Fuel_spec fuel (n / 2) hd hd0
      constructor
      · rw [pow_succ]
        omega
      · rw [pow_succ]
        omega
    · simp only [h2, if_false]
      constructor <;> simp <;> omega

theorem natLog2_spec (n : Nat) (h0 : n ≠ 0) :
    2 ^ natLog2 n ≤ n ∧ n < 2 ^ (natLog2 n + 1) :=
  log2Fuel_spec n n (le_refl n) h0

theorem ilog2_spec (r : ℚ) (hr : 0 < r) :
    (2 : ℚ) ^ ilog2 r ≤ r ∧ r < (2 : ℚ) ^ (ilog2 r + 1) := by
  have hnum : 0 < r.num := Rat.num_pos.mpr hr
  have hn0 : r.num.natAbs ≠ 0 := by
    intro h
    have := Int.natAbs_eq_zero.mp h
    omega
  obtain ⟨n1, n2⟩ := natLog2_spec r.num.natAbs hn0
  obtain ⟨d1, d2⟩ := natLog2_spec r.den r.den_nz
  have hnq : ((r.num.natAbs : ℕ) : ℚ) = (r.num : ℚ) := by
    rw [Nat.cast_natAbs, abs_of_pos hnum]
  have hdpos : (0 : ℚ) < r.den := by exact_mod_cast r.den_pos
  have hr_eq : (r.num : ℚ) / (r.den : ℚ) = r := Rat.num_div_den r
  have N1 : (2 : ℚ) ^ (natLog2 r.num.natAbs) ≤ (r.num : ℚ) := by
    rw [← hnq]; exact_mod_cast n1
  have N2 : (r.num : ℚ) < (2 : ℚ) ^ (natLog2 r.num.natAbs) * 2 := by
    rw [← hnq, ← pow_succ]; exact_mod_cast n2
  have D1 : (2 : ℚ) ^ (natLog2 r.den) ≤ (r.den : ℚ) := by exact_mod_cast d1
  have D2 : (r.den : ℚ) ≤ (2 : ℚ) ^ (natLog2 r.den) * 2 := by
    rw [← pow_succ]; exact_mod_cast le_of_lt d2
  have two_ne : (2 : ℚ) ≠ 0 := by norm_num
  unfold ilog2
  simp only []
  generalize natLog2 r.num.natAbs = a at N1 N2 ⊢
  generalize natLog2 r.den = b at D1 D2 ⊢
  have pa : (0 : ℚ) < (2 : ℚ) ^ a := by positivity
  have pb : (0 : ℚ) < (2 : ℚ) ^ b := by positivity
  have hk : (2 : ℚ) ^ ((a : Int) - (b : Int)) = (2 : ℚ) ^ a / (2 : ℚ) ^ b := by
    rw [zpow_sub₀ two_ne, zpow_natCast, zpow_natCast]
  have upper : r < (2 : ℚ) ^ a / (2 : ℚ) ^ b * 2 := by
    rw [← hr_eq, div_lt_iff₀ hdpos]
    calc (r.num : ℚ) < (2 : ℚ) ^ a * 2 := N2
      _ = (2 : ℚ) ^ a / (2 : ℚ) ^ b * 2 * (2 : ℚ) ^ b := by field_simp
      _ ≤ (2 : ℚ) ^ a / (2 : ℚ) ^ b * 2 * (r.den : ℚ) := by
          apply mul_le_mul_of_nonneg_left D1
          positivity
  have lower : (2 : ℚ) ^ a / (2 : ℚ) ^ b / 2 ≤ r := by
    rw [← hr_eq, le_div_iff₀ hdpos]
    calc (2 : ℚ) ^ a / (2 : ℚ) ^ b / 2 * (r.den : ℚ)
        ≤ (2 : ℚ) ^ a / (2 : ℚ) ^ b / 2 * ((2 : ℚ) ^ b * 2) := by
          apply mul_le_mul_of_nonneg_left D2
          positivity
      _ = (2 : ℚ) ^ a := by field_simp
      _ ≤ (r.num : ℚ) := N1
  split_ifs with h
  · refine ⟨h, ?_⟩
    rw [zpow_add₀ two_ne, hk, zpow_one]
    exact upper
  · refine ⟨?_, ?_⟩
    · rw [zpow_sub₀ two_ne, hk, zpow_one]
      exact lower
    · rw [sub_add_cancel]
      exact not_le.mp h

theorem roundHalfEven_le (y : ℚ) (n : Int) (h : y ≤ n) : roundHalfEven y ≤ n := by
  have hf : ⌊y⌋ ≤ n := Int.floor_le_iff.mpr (by
    have := h
    linarith)
  unfold roundHalfEven
  simp only []
  by_cases hint : (⌊y⌋ : ℚ) = y
  · have h0 : y - (⌊y⌋ : ℚ) < 1 / 2 := by rw [hint]; norm_num
    simp only [h0, if_true]
    exact hf
  · have hlt : (⌊y⌋ : ℚ) < y := lt_of_le_of_ne (Int.floor_le y) hint
    have hfn : ⌊y⌋ < n := by
      have : (⌊y⌋ : ℚ) < (n : ℚ) := lt_of_lt_of_le hlt h
      exact_mod_cast this
    split_ifs <;> omega

theorem roundHalfEven_ge (y : ℚ) (n : Int) (h : (n : ℚ) ≤ y) : n ≤ roundHalfEven y := by
  have hf : n ≤ ⌊y⌋ := Int.le_floor.mpr h
  unfold roundHalfEven
  simp only []
  split_ifs <;> omega

theorem abs_roundBinary_le (prec : Nat) (emin : Int) (x : ℚ) (k : Int)
    (hk : emin ≤ k) (hx : |x| ≤ (2 : ℚ) ^ k) :
    |roundBinary prec emin x| ≤ (2 : ℚ) ^ k := by
  have two_ne : (2 : ℚ) ≠ 0 := by norm_num
  unfold roundBinary
  by_cases h0 : x = 0
  · simp only [h0, if_true, abs_zero]
    positivity
  simp only [h0, if_false]
  have hpos : 0 < |x| := abs_pos.mpr h0
  obtain ⟨s1, _⟩ := ilog2_spec |x| hpos
  have hle : ilog2 |x| ≤ k := by
    have : (2 : ℚ) ^ ilog2 |x| ≤ (2 : ℚ) ^ k := le_trans s1 hx
    exact (zpow_le_zpow_iff_right₀ (by norm_num : (1 : ℚ) < 2)).mp this
  have hek : max (ilog2 |x|) emin ≤ k := max_le hle hk
  generalize max (ilog2 |x|) emin = e at hek
  generalize hq : (2 : ℚ) ^ (e - ((prec - 1 : Nat) : Int)) = q
  have hqpos : 0 < q := by rw [← hq]; positivity
  -- the bound 2^k is an integer multiple of the spacing q
  have hM : (((2 : Int) ^ ((k - e).toNat + (prec - 1)) : Int) : ℚ) * q = (2 : ℚ) ^ k := by
    rw [← hq]
    push_cast
    rw [← zpow_natCast, ← zpow_add₀ two_ne]
    congr 1
    have : ((k - e).toNat : Int) = k - e := Int.toNat_of_nonneg (by omega)
    push_cast
    omega
  generalize ((2 : Int) ^ ((k - e).toNat + (prec - 1)) : Int) = M at hM
  have hxq : |x / q| ≤ (M : ℚ) := by
    rw [abs_div, abs_of_pos hqpos, div_le_iff₀ hqpos, hM]
    exact hx
  have hup : roundHalfEven (x / q) ≤ M := roundHalfEven_le _ _ (le_trans (le_abs_self _) hxq)
  have hlo : -M ≤ roundHalfEven (x / q) := by
    apply roundHalfEven_ge
    push_cast
    have := neg_abs_le (x / q)
    linarith
  have habs : |((roundHalfEven (x / q) : Int) : ℚ)| ≤ (M : ℚ) := by
    rw [abs_le]
    constructor
    · exact_mod_cast hlo
    · exact_mod_cast hup
  rw [abs_mul, abs_of_pos hqpos, ← hM]
  exact mul_le_mul_of_nonneg_right habs (le_of_lt hqpos)

theorem abs_f32_le_half (x : ℚ) (hx : |x| ≤ 1 / 2) : |f32 x| ≤ 1 / 2 := by
  have h := abs_roundBinary_le 24 (-126) x (-1) (by norm_num) (by
    rw [zpow_neg_one]
    norm_num at hx ⊢
    exact hx)
  rw [zpow_neg_one] at h
  norm_num at h ⊢
  exact h

theorem roundBinary_nonneg (prec : Nat) (emin : Int) (x : ℚ) (hx : 0 ≤ x) :
    0 ≤ roundBinary prec emin x := by
  unfold roundBinary
  split_ifs with h0
  · exact le_refl 0
  · simp only []
    apply mul_nonneg
    · have h : (0 : Int) ≤
          roundHalfEven (x / 2 ^ (max (ilog2 |x|) emin - ((prec - 1 : Nat) : Int))) := by
        apply roundHalfEven_ge
        push_cast
        exact div_nonneg hx (by positivity)
      exact_mod_cast h
    · positivity

theorem roundBinary_nonpos (prec : Nat) (emin : Int) (x : ℚ) (hx : x ≤ 0) :
    roundBinary prec emin x ≤ 0 := by
  unfold roundBinary
  split_ifs with h0
  · exact le_refl 0
  · simp only []
    apply mul_nonpos_of_nonpos_of_nonneg
    · have h : roundHalfEven (x / 2 ^ (max (ilog2 |x|) emin - ((prec - 1 : Nat) : Int)))
          ≤ (0 : Int) := by
        apply roundHalfEven_le
        push_cast
        exact div_nonpos_of_nonpos_of_nonneg hx (by positivity)
      exact_mod_cast h
    · positivity

theorem roundBinary_ge_zpow (prec : Nat) (emin : Int) (x : ℚ) (k : Int)
    (hk : emin ≤ k) (hx : (2 : ℚ) ^ k ≤ x) : (2 : ℚ) ^ k ≤ roundBinary prec emin x := by
  have two_ne : (2 : ℚ) ≠ 0 := by norm_num
  have hxpos : 0 < x := lt_of_lt_of_le (by positivity) hx
  have h0 : x ≠ 0 := ne_of_gt hxpos
  unfold roundBinary
  simp only [h0, if_false]
  rw [abs_of_pos hxpos]
  obtain ⟨s1, s2⟩ := ilog2_spec x hxpos
  have hkl : k ≤ ilog2 x := by
    have h1 : (2 : ℚ) ^ k < (2 : ℚ) ^ (ilog2 x + 1) := lt_of_le_of_lt hx s2
    have h2 := (zpow_lt_zpow_iff_right₀ (by norm_num : (1 : ℚ) < 2)).mp h1
    omega
  have he : max (ilog2 x) emin = ilog2 x := max_eq_left (le_trans hk hkl)
  rw [he]
  generalize ilog2 x = e at s1 hkl
  generalize hq : (2 : ℚ) ^ (e - ((prec - 1 : Nat) : Int)) = q
  have hqpos : 0 < q := by rw [← hq]; positivity
  have hM : (((2 : Int) ^ (prec - 1) : Int) : ℚ) * q = (2 : ℚ) ^ e := by
    rw [← hq]
    push_cast
    rw [← zpow_natCast, ← zpow_add₀ two_ne]
    congr 1
    omega
  generalize ((2 : Int) ^ (prec - 1) : Int) = M at hM
  have hMy : (M : ℚ) ≤ x / q := by
    rw [le_div_iff₀ hqpos, hM]
    exact s1
  have hr := roundHalfEven_ge _ _ hMy
  calc (2 : ℚ) ^ k ≤ (2 : ℚ) ^ e :=
        (zpow_le_zpow_iff_right₀ (by norm_num : (1 : ℚ) < 2)).mpr hkl
    _ = (M : ℚ) * q := hM.symm
    _ ≤ (roundHalfEven (x / q) : ℚ) * q := by
        apply mul_le_mul_of_nonneg_right _ (le_of_lt hqpos)
        exact_mod_cast hr

theorem roundBinary_le_neg_zpow (prec : Nat) (emin : Int) (x : ℚ) (k : Int)
    (hk : emin ≤ k) (hx : x ≤ -(2 : ℚ) ^ k) : roundBinary prec emin x ≤ -(2 : ℚ) ^ k := by
  have two_ne : (2 : ℚ) ≠ 0 := by norm_num
  have hxneg : x < 0 := lt_of_le_of_lt hx (by simp; positivity)
  have h0 : x ≠ 0 := ne_of_lt hxneg
  unfold roundBinary
  simp only [h0, if_false]
  rw [abs_of_neg hxneg]
  have hnpos : 0 < -x := by linarith
  obtain ⟨s1, s2⟩ := ilog2_spec (-x) hnpos
  have hkl : k ≤ ilog2 (-x) := by
    have h1 : (2 : ℚ) ^ k < (2 : ℚ) ^ (ilog2 (-x) + 1) :=
      lt_of_le_of_lt (by linarith) s2
    have h2 := (zpow_lt_zpow_iff_right₀ (by norm_num : (1 : ℚ) < 2)).mp h1
    omega
  have he : max (ilog2 (-x)) emin = ilog2 (-x) := max_eq_left (le_trans hk hkl)
  rw [he]
  generalize ilog2 (-x) = e at s1 hkl
  generalize hq : (2 : ℚ) ^ (e - ((prec - 1 : Nat) : Int)) = q
  have hqpos : 0 < q := by rw [← hq]; positivity
  have hM : (((2 : Int) ^ (prec - 1) : Int) : ℚ) * q = (2 : ℚ) ^ e := by
    rw [← hq]
    push_cast
    rw [← zpow_natCast, ← zpow_add₀ two_ne]
    congr 1
    omega
  generalize ((2 : Int) ^ (prec - 1) : Int) = M at hM
  have hMy : x / q ≤ ((-M : Int) : ℚ) := by
    rw [div_le_iff₀ hqpos]
    push_cast
    rw [neg_mul, hM]
    linarith
  have hr := roundHalfEven_le _ _ hMy
  have hke : (2 : ℚ) ^ k ≤ (2 : ℚ) ^ e :=
    (zpow_le_zpow_iff_right₀ (by norm_num : (1 : ℚ) < 2)).mpr hkl
  have hr2 : (roundHalfEven (x / q) : ℚ) ≤ -(M : ℚ) := by exact_mod_cast hr
  calc (roundHalfEven (x / q) : ℚ) * q ≤ -(M : ℚ) * q :=
        mul_le_mul_of_nonneg_right hr2 (le_of_lt hqpos)
    _ = -(2 : ℚ) ^ e := by rw [neg_mul, hM]
    _ ≤ -(2 : ℚ) ^ k := by linarith

theorem roundHalfEven_intCast (n : Int) : roundHalfEven (n : ℚ) = n := by
  unfold roundHalfEven
  simp

theorem roundBinary_int_mul_zpow (prec : Nat) (emin : Int) (k j : Int)
    (hp : 1 ≤ prec) (hj : emin - ((prec - 1 : Nat) : Int) ≤ j)
    (hk : |(k : ℚ)| < (2 : ℚ) ^ prec) :
    roundBinary prec emin ((k : ℚ) * (2 : ℚ) ^ j) = (k : ℚ) * (2 : ℚ) ^ j := by
  have two_ne : (2 : ℚ) ≠ 0 := by norm_num
  by_cases hk0 : k = 0
  · simp [hk0, roundBinary]
  have hjpos : (0 : ℚ) < (2 : ℚ) ^ j := by positivity
  have hx0 : (k : ℚ) * (2 : ℚ) ^ j ≠ 0 :=
    mul_ne_zero (by exact_mod_cast hk0) (ne_of_gt hjpos)
  unfold roundBinary
  simp only [hx0, if_false]
  have hpos : 0 < |(k : ℚ) * (2 : ℚ) ^ j| := abs_pos.mpr hx0
  obtain ⟨s1, _⟩ := ilog2_spec _ hpos
  have hlt : |(k : ℚ) * (2 : ℚ) ^ j| < (2 : ℚ) ^ ((prec : Int) + j) := by
    rw [abs_mul, abs_of_pos hjpos, zpow_add₀ two_ne, zpow_natCast]
    exact mul_lt_mul_of_pos_right hk hjpos
  have hil : ilog2 |(k : ℚ) * (2 : ℚ) ^ j| < (prec : Int) + j :=
    (zpow_lt_zpow_iff_right₀ (by norm_num : (1 : ℚ) < 2)).mp (lt_of_le_of_lt s1 hlt)
  have hcast : ((prec - 1 : Nat) : Int) = (prec : Int) - 1 := by omega
  have he : max (ilog2 |(k : ℚ) * (2 : ℚ) ^ j|) emin - ((prec - 1 : Nat) : Int) ≤ j := by
    rcases max_cases (ilog2 |(k : ℚ) * (2 : ℚ) ^ j|) emin with ⟨h, _⟩ | ⟨h, _⟩
    · rw [h]; omega
    · rw [h]; exact hj
  generalize max (ilog2 |(k : ℚ) * (2 : ℚ) ^ j|) emin - ((prec - 1 : Nat) : Int) = u at he
  have hd : (k : ℚ) * (2 : ℚ) ^ j / (2 : ℚ) ^ u =
      ((k * 2 ^ (j - u).toNat : Int) : ℚ) := by
    push_cast
    rw [mul_div_assoc, ← zpow_sub₀ two_ne, ← zpow_natCast]
    congr 2
    exact (Int.toNat_of_nonneg (by omega)).symm
  rw [hd, roundHalfEven_intCast]
  push_cast
  rw [mul_assoc, ← zpow_natCast, ← zpow_add₀ two_ne]
  congr 2
  have : ((j - u).toNat : Int) = j - u := Int.toNat_of_nonneg (by omega)
  omega

theorem f32_int_mul_zpow (k j : Int) (hj : -149 ≤ j) (hk : |(k : ℚ)| < 16777216) :
    f32 ((k : ℚ) * (2 : ℚ) ^ j) = (k : ℚ) * (2 : ℚ) ^ j := by
  apply roundBinary_int_mul_zpow 24 (-126) k j (by norm_num)
  · norm_num
    omega
  · norm_num
    exact hk

theorem f32_fixed_grid (m : ℚ) (h : f32 m = m) (h4 : 4 ≤ m) (h8 : m < 8) :
    ∃ n : Int, m = (n : ℚ) * (2 : ℚ) ^ (-21 : Int) := by
  have hpos : 0 < m := by linarith
  have h0 : m ≠ 0 := ne_of_gt hpos
  obtain ⟨s1, s2⟩ := ilog2_spec m hpos
  have hil : ilog2 m = 2 := by
    have a1 : (2 : ℚ) ^ ilog2 m < (2 : ℚ) ^ (3 : Int) := by
      refine lt_of_le_of_lt s1 ?_
      norm_num
      exact h8
    have a2 : (2 : ℚ) ^ (2 : Int) < (2 : ℚ) ^ (ilog2 m + 1) := by
      refine lt_of_le_of_lt ?_ s2
      norm_num
      exact h4
    have b1 := (zpow_lt_zpow_iff_right₀ (by norm_num : (1 : ℚ) < 2)).mp a1
    have b2 := (zpow_lt_zpow_iff_right₀ (by norm_num : (1 : ℚ) < 2)).mp a2
    omega
  unfold f32 roundBinary at h
  simp only [h0, if_false] at h
  rw [abs_of_pos hpos, hil] at h
  refine ⟨roundHalfEven (m / 2 ^ (max (2 : Int) (-126) - ((24 - 1 : Nat) : Int))), ?_⟩
  have e : max (2 : Int) (-126) - ((24 - 1 : Nat) : Int) = -21 := by decide
  rw [e] at h ⊢
  exact h.symm

theorem roundHalfEven_neg (y : ℚ) : roundHalfEven (-y) = -roundHalfEven y := by
  by_cases hint : ((⌊y⌋ : Int) : ℚ) = y
  · have h1 : -y = ((-⌊y⌋ : Int) : ℚ) := by
      push_cast
      rw [hint]
    have h2 : roundHalfEven y = ⌊y⌋ := by
      conv_lhs => rw [← hint]
      exact roundHalfEven_intCast _
    rw [h2, h1, roundHalfEven_intCast]
  · have hlt : ((⌊y⌋ : Int) : ℚ) < y := lt_of_le_of_ne (Int.floor_le y) hint
    have hlt2 : y < ((⌊y⌋ : Int) : ℚ) + 1 := Int.lt_floor_add_one y
    have hfl : ⌊-y⌋ = -⌊y⌋ - 1 := by
      rw [Int.floor_eq_iff]
      push_cast
      constructor <;> linarith
    unfold roundHalfEven
    simp only [hfl]
    push_cast
    generalize ⌊y⌋ = f at hlt hlt2 ⊢
    split_ifs <;> first | omega | (exfalso; linarith)

theorem roundBinary_neg (prec : Nat) (emin : Int) (x : ℚ) :
    roundBinary prec emin (-x) = -roundBinary prec emin x := by
  unfold roundBinary
  by_cases h0 : x = 0
  · simp [h0]
  · have h1 : -x ≠ 0 := neg_ne_zero.mpr h0
    simp only [h0, h1, if_false, abs_neg, neg_div, roundHalfEven_neg]
    push_cast
    ring

theorem f32_neg (x : ℚ) : f32 (-x) = -f32 x := roundBinary_neg 24 (-126) x

/-- No binary32 value lies strictly between two neighbours `N * 2^j` and
`(N + 1) * 2^j` of the binary32 grid. -/
theorem f32_gap (N j : Int) (hN : 8388608 ≤ N) (hN2 : N < 16777216) (hj : -149 ≤ j)
    (x : ℚ) :
    f32 x ≤ (N : ℚ) * (2 : ℚ) ^ j ∨ ((N : ℚ) + 1) * (2 : ℚ) ^ j ≤ f32 x := by
  have two_ne : (2 : ℚ) ≠ 0 := by norm_num
  have hq : (0 : ℚ) < (2 : ℚ) ^ j := by positivity
  have hNq : (8388608 : ℚ) ≤ (N : ℚ) := by exact_mod_cast hN
  have hN2q : (N : ℚ) < 16777216 := by exact_mod_cast hN2
  have hp23 : (2 : ℚ) ^ (j + 23) = 8388608 * (2 : ℚ) ^ j := by
    rw [zpow_add₀ two_ne]
    norm_num
    ring
  have hp24 : (2 : ℚ) ^ (j + 24) = 16777216 * (2 : ℚ) ^ j := by
    rw [zpow_add₀ two_ne]
    norm_num
    ring
  by_cases hlo : x < (2 : ℚ) ^ (j + 23)
  · -- below the binade: bounded by its lower end
    left
    have hb : f32 x ≤ (2 : ℚ) ^ (j + 23) := by
      by_cases hx0 : x ≤ 0
      · exact le_trans (roundBinary_nonpos 24 (-126) x hx0) (by positivity)
      · have hxpos : 0 < x := not_le.mp hx0
        have h := abs_roundBinary_le 24 (-126) x (j + 23) (by omega)
          (by rw [abs_of_pos hxpos]; exact le_of_lt hlo)
        exact le_trans (le_abs_self _) h
    rw [hp23] at hb
    have : (8388608 : ℚ) * (2 : ℚ) ^ j ≤ (N : ℚ) * (2 : ℚ) ^ j :=
      mul_le_mul_of_nonneg_right hNq (le_of_lt hq)
    linarith
  · by_cases hhi : (2 : ℚ) ^ (j + 24) ≤ x
    · -- above the binade: bounded by its upper end
      right
      have hb := roundBinary_ge_zpow 24 (-126) x (j + 24) (by omega) hhi
      rw [hp24] at hb
      have : ((N : ℚ) + 1) * (2 : ℚ) ^ j ≤ 16777216 * (2 : ℚ) ^ j := by
        apply mul_le_mul_of_nonneg_right _ (le_of_lt hq)
        have : N + 1 ≤ 16777216 := by omega
        exact_mod_cast this
      exact le_trans this hb
    · -- inside the binade the spacing is 2^j
      have hlo2 : (2 : ℚ) ^ (j + 23) ≤ x := not_lt.mp hlo
      have hhi2 : x < (2 : ℚ) ^ (j + 24) := not_le.mp hhi
      have hxpos : 0 < x := lt_of_lt_of_le (by positivity) hlo2
      have h0 : x ≠ 0 := ne_of_gt hxpos
      obtain ⟨s1, s2⟩ := ilog2_spec x hxpos
      have hil : ilog2 x = j + 23 := by
        have a1 := (zpow_lt_zpow_iff_right₀ (by norm_num : (1 : ℚ) < 2)).mp
          (lt_of_le_of_lt s1 hhi2)
        have a2 := (zpow_lt_zpow_iff_right₀ (by norm_num : (1 : ℚ) < 2)).mp
          (lt_of_le_of_lt hlo2 s2)
        omega
      have hf : f32 x = (roundHalfEven (x / (2 : ℚ) ^ j) : ℚ) * (2 : ℚ) ^ j := by
        unfold f32 roundBinary
        simp only [h0, if_false]
        rw [abs_of_pos hxpos, hil]
        have e : max (j + 23) (-126) - ((24 - 1 : Nat) : Int) = j := by
          rw [max_eq_left (by omega)]
          norm_num
        rw [e]
      rw [hf]
      by_cases hc : x / (2 : ℚ) ^ j ≤ (N : ℚ)
      · left
        have := roundHalfEven_le _ _ hc
        apply mul_le_mul_of_nonneg_right _ (le_of_lt hq)
        exact_mod_cast this
      · by_cases hc2 : ((N + 1 : Int) : ℚ) ≤ x / (2 : ℚ) ^ j
        · right
          have := roundHalfEven_ge _ _ hc2
          apply mul_le_mul_of_nonneg_right _ (le_of_lt hq)
          exact_mod_cast this
        · -- strictly between N and N + 1: the rounding is one of the two
          have g1 : (N : ℚ) < x / (2 : ℚ) ^ j := not_le.mp hc
          have g2 : x / (2 : ℚ) ^ j < ((N + 1 : Int) : ℚ) := not_le.mp hc2
          have hfl : ⌊x / (2 : ℚ) ^ j⌋ = N := by
            rw [Int.floor_eq_iff]
            constructor
            · exact le_of_lt g1
            · push_cast at g2
              exact g2
          have hr : roundHalfEven (x / (2 : ℚ) ^ j) = N ∨
              roundHalfEven (x / (2 : ℚ) ^ j) = N + 1 := by
            unfold roundHalfEven
            simp only [hfl]
            split_ifs <;> simp
          rcases hr with h | h
          · left
            rw [h]
          · right
            rw [h]
            push_cast
            exact le_refl _

theorem abs_f32 (x : ℚ) : |f32 x| = f32 |x| := by
  by_cases hx : 0 ≤ x
  · have h : 0 ≤ f32 x := roundBinary_nonneg 24 (-126) x hx
    rw [abs_of_nonneg hx, abs_of_nonneg h]
  · have hx2 : x ≤ 0 := le_of_lt (not_le.mp hx)
    have h : f32 x ≤ 0 := roundBinary_nonpos 24 (-126) x hx2
    rw [abs_of_nonpos hx2, abs_of_nonpos h, f32_neg]

/-- The literals 0.2 and 0.1 of line 279 are not binary32 values, but
comparing the magnitude of a `float` with the literal itself, with its
binary32 value or with its binary64 value comes to the same. -/
theorem threshold_exact (x : ℚ) :
    (fabs (f32 x) < 0.2 ↔ fabs (f32 x) < f32 0.2) ∧
    (fabs (f32 x) < 0.2 ↔ fabs (f32 x) < f64 0.2) ∧
    (fabs (f32 x) < 0.1 ↔ fabs (f32 x) < f32 0.1) ∧
    (fabs (f32 x) < 0.1 ↔ fabs (f32 x) < f64 0.1) := by
  have e2 : f32 0.2 = ((13421772 : Int) + 1 : ℚ) * (2 : ℚ) ^ (-26 : Int) := by decide!
  have e1 : f32 0.1 = ((13421772 : Int) + 1 : ℚ) * (2 : ℚ) ^ (-27 : Int) := by decide!
  have l2 : ((13421772 : Int) : ℚ) * (2 : ℚ) ^ (-26 : Int) < 0.2 := by decide!
  have l1 : ((13421772 : Int) : ℚ) * (2 : ℚ) ^ (-27 : Int) < 0.1 := by decide!
  have d2 : (0.2 : ℚ) < f64 0.2 ∧ f64 0.2 ≤ f32 0.2 ∧ (0.2 : ℚ) < f32 0.2 := by decide!
  have d1 : (0.1 : ℚ) < f64 0.1 ∧ f64 0.1 ≤ f32 0.1 ∧ (0.1 : ℚ) < f32 0.1 := by decide!
  have g2 := f32_gap 13421772 (-26) (by norm_num) (by norm_num) (by norm_num) |x|
  have g1 := f32_gap 13421772 (-27) (by norm_num) (by norm_num) (by norm_num) |x|
  unfold fabs
  rw [abs_f32]
  rw [← e2] at g2
  rw [← e1] at g1
  generalize f32 |x| = y at g1 g2
  refine ⟨⟨fun h => lt_trans h d2.2.2, fun h => ?_⟩,
          ⟨fun h => lt_trans h d2.1, fun h => ?_⟩,
          ⟨fun h => lt_trans h d1.2.2, fun h => ?_⟩,
          ⟨fun h => lt_trans h d1.1, fun h => ?_⟩⟩
  · rcases g2 with g | g
    · exact lt_of_le_of_lt g l2
    · exact absurd h (not_lt.mpr g)
  · rcases g2 with g | g
    · exact lt_of_le_of_lt g l2
    · exact absurd (lt_of_lt_of_le h d2.2.1) (not_lt.mpr g)
  · rcases g1 with g | g
    · exact lt_of_le_of_lt g l1
    · exact absurd h (not_lt.mpr g)
  · rcases g1 with g | g
    · exact lt_of_le_of_lt g l1
    · exact absurd (lt_of_lt_of_le h d1.2.1) (not_lt.mpr g)

theorem f32_nonneg (x : ℚ) (hx : 0 ≤ x) : 0 ≤ f32 x :=
  roundBinary_nonneg 24 (-126) x hx

theorem f32_nonpos (x : ℚ) (hx : x ≤ 0) : f32 x ≤ 0 :=
  roundBinary_nonpos 24 (-126) x hx

theorem f32_ge_two (x : ℚ) (hx : 2 ≤ x) : 2 ≤ f32 x := by
  have h := roundBinary_ge_zpow 24 (-126) x 1 (by norm_num) (by rw [zpow_one]; exact hx)
  rw [zpow_one] at h
  exact h

theorem f32_le_neg_two (x : ℚ) (hx : x ≤ -2) : f32 x ≤ -2 := by
  have h := roundBinary_le_neg_zpow 24 (-126) x 1 (by norm_num) (by rw [zpow_one]; exact hx)
  rw [zpow_one] at h
  exact h

theorem f32_ge_half (x : ℚ) (hx : 1 / 2 ≤ x) : 1 / 2 ≤ f32 x := by
  have h := roundBinary_ge_zpow 24 (-126) x (-1) (by norm_num)
    (by rw [zpow_neg_one]; norm_num at hx ⊢; exact hx)
  rw [zpow_neg_one] at h
  norm_num at h ⊢
  exact h

theorem f32_le_neg_half (x : ℚ) (hx : x ≤ -(1 / 2)) : f32 x ≤ -(1 / 2) := by
  have h := roundBinary_le_neg_zpow 24 (-126) x (-1) (by norm_num)
    (by rw [zpow_neg_one]; norm_num at hx ⊢; exact hx)
  rw [zpow_neg_one] at h
  norm_num at h ⊢
  exact h

/-- The difference `6 - m` is computed without rounding when `m` is a
`float` within 1/2 of 6. -/
theorem fsub_six_exact (m : ℚ) (hf : f32 m = m) (hm : |6 - m| ≤ 1 / 2) :
    fsub 6 m = 6 - m := by
  obtain ⟨h1, h2⟩ := abs_le.mp hm
  obtain ⟨n, hn⟩ := f32_fixed_grid m hf (by linarith) (by linarith)
  have hpow : (2 : ℚ) ^ (-21 : Int) = 1 / 2097152 := by
    rw [zpow_neg, zpow_ofNat]
    norm_num
  have hk : (6 : ℚ) - m = ((12582912 - n : Int) : ℚ) * (2 : ℚ) ^ (-21 : Int) := by
    rw [hn, hpow]
    push_cast
    ring
  have hb : |((12582912 - n : Int) : ℚ)| < 16777216 := by
    have h3 : |((12582912 - n : Int) : ℚ) * (2 : ℚ) ^ (-21 : Int)| ≤ 1 / 2 := by
      rw [← hk]
      exact hm
    rw [abs_mul, hpow, abs_of_pos (by norm_num : (0 : ℚ) < 1 / 2097152)] at h3
    have h4 : |((12582912 - n : Int) : ℚ)| ≤ 1048576 := by linarith
    linarith
  unfold fsub
  rw [hk]
  exact f32_int_mul_zpow _ _ (by norm_num) hb

theorem f32_zero : f32 0 = 0 := by
  simp [f32, roundBinary]

theorem fsub_self (a : ℚ) : fsub a a = 0 := by
  simp [fsub, f32_zero]

theorem abs_fsub_le_half (a b : ℚ) (h : |a - b| ≤ 1 / 2) : fabs (fsub a b) ≤ 0.5 := by
  have := abs_f32_le_half (a - b) h
  unfold fabs fsub
  norm_num at this ⊢
  exact this

/-- The conversion of the gain literals to `float` does not depend on the
width of `double`. -/
theorem gains_conversion :
    f32 (f64 K_P) = f32 K_P ∧ f32 (f64 K_I) = f32 K_I ∧ f32 (f64 K_D) = f32 K_D ∧
    f32 K_P = 4928307 / 1048576 ∧ f32 K_I = 5368709 / 536870912 ∧
    f32 K_D = 9646899 / 4194304 := by
  decide!

theorem inchesOf_readings :
    inchesOf atmega32u4 reading25 = 25 ∧ inchesOf wideTarget reading25 = 25 ∧
    inchesOf atmega32u4 reading8 = 8 ∧ inchesOf wideTarget reading8 = 8 ∧
    inchesOf atmega32u4 reading6 = 6 ∧ inchesOf wideTarget reading6 = 6 := by
  decide!

/-! ## Bit-mask lemmas -/

theorem land_lor_self (b m : Nat) : (b ||| m) &&& m = m := by
  apply Nat.eq_of_testBit_eq
  intro i
  simp only [Nat.testBit_land, Nat.testBit_lor]
  cases b.testBit i <;> cases m.testBit i <;> rfl

theorem maskSet_setMask (b m : Nat) (hm : m ≠ 0) :
    maskSet (setMask b m) m = true := by
  simp [maskSet, setMask, land_lor_self, hm]

theorem compl_land_self (m : Nat) (hm : m ≤ 255) : (255 - m) &&& m = 0 := by
  interval_cases m <;> decide

theorem clearMask_land_self (b m : Nat) (hm : m ≤ 255) :
    clearMask b m &&& m = 0 := by
  unfold clearMask
  rw [Nat.and_assoc, compl_land_self m hm, Nat.and_zero]

theorem maskSet_clearMask (b m : Nat) (hm : m ≤ 255) :
    maskSet (clearMask b m) m = false := by
  simp [maskSet, clearMask_land_self b m hm]

theorem clearMask_setMask (b m : Nat) (hm : m ≤ 255) :
    clearMask (setMask b m) m = clearMask b m := by
  unfold clearMask setMask
  apply Nat.eq_of_testBit_eq
  intro i
  have h2 := congrArg (fun x => Nat.testBit x i) (compl_land_self m hm)
  simp only [Nat.testBit_land, Nat.zero_testBit] at h2
  simp only [Nat.testBit_land, Nat.testBit_lor]
  revert h2
  cases b.testBit i <;> cases m.testBit i <;> cases (255 - m).testBit i <;> simp

/-! ## Unfolding lemmas for the controllers -/

theorem wallFollowLoop_of_clear (s : RobotState)
    (h : maskSet s.behaviorState MASK_WALLFOLLOW = false) :
    wallFollowLoop s = (s, [], 0) := by
  rw [wallFollowLoop]
  simp [h]

theorem wallFollowLoop_of_set (s : RobotState)
    (h : maskSet s.behaviorState MASK_WALLFOLLOW = true) :
    wallFollowLoop s =
      ({ s with behaviorState := clearMask s.behaviorState MASK_WALLFOLLOW },
       [Event.turnFor WALL_FOLLOW_TURNANGLE WALL_FOLLOW_TURNRATE true,
        Event.moveArch 10 25 true], 1) := by
  rw [wallFollowLoop]
  have hc := wallFollowLoop_of_clear
    { s with behaviorState := clearMask s.behaviorState MASK_WALLFOLLOW }
    (maskSet_clearMask _ _ (by decide))
  simp [h, hc]

theorem calls_approachController (s : RobotState) :
    calls (approachController s).2 = [Controller.approach] := by
  unfold approachController
  simp only []
  split_ifs <;> simp [calls]

theorem entryFlags_approachController (s : RobotState) :
    entryFlags (approachController s).2 = [s.behaviorState] := by
  unfold approachController
  simp only []
  split_ifs <;> simp [entryFlags]

theorem approachController_no_turn_arch (s : RobotState) (e : Event)
    (he : e ∈ (approachController s).2) :
    (∀ a r b, e ≠ Event.turnFor a r b) ∧ (∀ r v b, e ≠ Event.moveArch r v b) := by
  unfold approachController at he
  simp only [] at he
  split_ifs at he <;> simp at he <;> rcases he with rfl | rfl <;> simp

theorem approachBand_of_mem (m : ℚ) (h1 : 6.25 < m) (h2 : m ≤ 20.0) :
    approachBand m = true := by
  simp only [approachBand, decide_eq_true_eq]
  exact Or.inl ⟨h2, h1⟩

theorem loop_act_complete (t : Target) (s : RobotState) (i : TickInput)
    (hs : s.state = STATE_ACT) (hc : i.motionComplete = true) :
    loop t s i =
      ({ (arbiter t s i).1 with
          testIteration := wrapInt t.intBits ((arbiter t s i).1.testIteration + 1),
          state := if wrapInt t.intBits ((arbiter t s i).1.testIteration + 1) < NUM_ITERATIONS
                   then STATE_SENSE else STATE_END },
       (arbiter t s i).2) := by
  unfold loop
  simp [hs, hc, STATE_ACT, STATE_BEGIN, STATE_SENSE, STATE_THINK]

theorem calls_wanderController (t : Target) (s : RobotState) (i : TickInput) :
    calls (wanderController t s i).2 = [Controller.wander] := by
  unfold wanderController
  simp only []
  split_ifs <;> simp [calls]

theorem entryFlags_wanderController (t : Target) (s : RobotState) (i : TickInput) :
    entryFlags (wanderController t s i).2 = [s.behaviorState] := by
  unfold wanderController
  simp only []
  split_ifs <;> simp [entryFlags]

theorem approachBand_iff (m : ℚ) :
    approachBand m = true ↔ (m ≤ 20.0 ∧ m > 6.25) ∨ (m ≤ 20.0 ∧ m < 5.75) := by
  simp [approachBand]

theorem wallFollowBand_iff (m : ℚ) :
    wallFollowBand m = true ↔ 5.75 ≤ m ∧ m ≤ 6.25 := by
  simp [wallFollowBand]

theorem wanderBand_iff (m : ℚ) : wanderBand m = true ↔ m > 20.0 := by
  simp [wanderBand]

theorem approachBand_false_of_follow (m : ℚ) (h1 : 5.75 ≤ m) (h2 : m ≤ 6.25) :
    approachBand m = false := by
  rw [← Bool.not_eq_true, approachBand_iff]
  rintro (⟨_, h⟩ | ⟨_, h⟩) <;> linarith

theorem approachBand_false_of_far (m : ℚ) (h : 20.0 < m) :
    approachBand m = false := by
  rw [← Bool.not_eq_true, approachBand_iff]
  rintro (⟨h3, _⟩ | ⟨h3, _⟩) <;> linarith

theorem wallFollowBand_false_of_far (m : ℚ) (h : 20.0 < m) :
    wallFollowBand m = false := by
  rw [← Bool.not_eq_true, wallFollowBand_iff]
  rintro ⟨_, h3⟩
  norm_num at h h3
  linarith

theorem arbiter_of_follow (t : Target) (s : RobotState) (i : TickInput)
    (h1 : 5.75 ≤ s.meas) (h2 : s.meas ≤ 6.25) :
    arbiter t s i =
      ({ s with behaviorState :=
          clearMask (setMask s.behaviorState MASK_WALLFOLLOW) MASK_WALLFOLLOW },
       [Event.enter Controller.wallFollow (setMask s.behaviorState MASK_WALLFOLLOW),
        Event.turnFor WALL_FOLLOW_TURNANGLE WALL_FOLLOW_TURNRATE true,
        Event.moveArch 10 25 true]) := by
  have ha := approachBand_false_of_follow s.meas h1 h2
  have hw := (wallFollowBand_iff s.meas).2 ⟨h1, h2⟩
  have hl := wallFollowLoop_of_set
    { s with behaviorState := setMask s.behaviorState MASK_WALLFOLLOW }
    (maskSet_setMask _ _ (by decide))
  simp [arbiter, ha, hw, wallFollowController, hl]

theorem arbiter_of_far (t : Target) (s : RobotState) (i : TickInput) (h : 20.0 < s.meas) :
    arbiter t s i =
      wanderController t
        { s with behaviorState := setMask s.behaviorState MASK_WANDER } i := by
  have ha := approachBand_false_of_far s.meas h
  have hw := wallFollowBand_false_of_far s.meas h
  have hd := (wanderBand_iff s.meas).2 h
  simp [arbiter, ha, hw, hd]

theorem bands_exactly_one (m : ℚ) :
    (approachBand m = true ∧ wallFollowBand m = false ∧ wanderBand m = false) ∨
    (approachBand m = false ∧ wallFollowBand m = true ∧ wanderBand m = false) ∨
    (approachBand m = false ∧ wallFollowBand m = false ∧ wanderBand m = true) := by
  simp only [← Bool.not_eq_true, approachBand_iff, wallFollowBand_iff, wanderBand_iff]
  rcases lt_or_le m 5.75 with h | h
  · refine Or.inl ⟨Or.inr ⟨?_, h⟩, ?_, ?_⟩
    · norm_num at h ⊢; linarith
    · rintro ⟨h3, _⟩; linarith
    · intro h3; norm_num at h h3; linarith
  · rcases le_or_lt m 6.25 with h6 | h6
    · refine Or.inr (Or.inl ⟨?_, ⟨h, h6⟩, ?_⟩)
      · rintro (⟨_, h3⟩ | ⟨_, h3⟩) <;> linarith
      · intro h3; norm_num at h6 h3; linarith
    · rcases le_or_lt m 20.0 with h20 | h20
      · refine Or.inl ⟨Or.inl ⟨h20, h6⟩, ?_, ?_⟩
        · rintro ⟨_, h3⟩; linarith
        · intro h3; linarith
      · refine Or.inr (Or.inr ⟨?_, ?_, h20⟩)
        · rintro (⟨h3, _⟩ | ⟨h3, _⟩) <;> linarith
        · rintro ⟨_, h3⟩; norm_num at h20 h3; linarith

theorem arbiter_of_approach (t : Target) (s : RobotState) (i : TickInput)
    (h : approachBand s.meas = true) :
    arbiter t s i =
      ({ (approachController
            { s with behaviorState := setMask s.behaviorState MASK_APPROACH }).1 with
          behaviorState := clearMask (approachController
            { s with behaviorState := setMask s.behaviorState MASK_APPROACH }).1.behaviorState
            MASK_APPROACH },
       (approachController
          { s with behaviorState := setMask s.behaviorState MASK_APPROACH }).2) := by
  simp [arbiter, h]

theorem calls_arbiter (t : Target) (s : RobotState) (i : TickInput) :
    calls (arbiter t s i).2 =
      [if approachBand s.meas then Controller.approach
       else if wallFollowBand s.meas then Controller.wallFollow
       else Controller.wander] := by
  rcases bands_exactly_one s.meas with ⟨h1, h2, h3⟩ | ⟨h1, h2, h3⟩ | ⟨h1, h2, h3⟩
  · rw [arbiter_of_approach t s i h1]
    simp [h1, calls_approachController]
  · rw [arbiter_of_follow t s i ((wallFollowBand_iff _).1 h2).1 ((wallFollowBand_iff _).1 h2).2]
    simp [h1, h2, calls]
  · rw [arbiter_of_far t s i ((wanderBand_iff _).1 h3)]
    simp [h1, h2, calls_wanderController]

theorem approachController_deadband (s : RobotState)
    (h : fabs (fsub s.ref s.meas) ≤ 0.5) :
    approachController s =
      ({ s with eT := s.eT_deltaT, eT_deltaT := fsub s.ref s.meas,
                ddt_eT := fsub (fsub s.ref s.meas) s.eT_deltaT },
       [Event.enter Controller.approach s.behaviorState]) := by
  have h' : ¬ fabs (fsub s.ref s.meas) > 0.5 := not_lt.mpr h
  simp [approachController, approachError, h']

theorem approachController_iEt (s : RobotState)
    (hm : maskSet s.behaviorState MASK_APPROACH = true)
    (he : fabs (fsub s.ref s.meas) > 0.5) :
    (approachController s).1.iEt = (approachIntegral (approachError s)).iEt := by
  unfold approachController
  have hg : maskSet (approachError s).behaviorState MASK_APPROACH = true ∧
      fabs (approachError s).eT_deltaT > 0.5 := ⟨hm, he⟩
  simp only [hg, and_self, if_true]
  split_ifs <;> rfl

theorem clearMask_testBit (b m k : Nat) (hb : b < 256) (hm : m ≤ 255)
    (hk : m.testBit k = false) :
    (clearMask b m).testBit k = b.testBit k := by
  unfold clearMask
  rw [Nat.testBit_land]
  by_cases h8 : k < 8
  · have : (255 - m).testBit k = true := by
      interval_cases k <;> interval_cases m <;> first | rfl | (exfalso; revert hk; decide)
    rw [this, Bool.and_true]
  · have hlt : b < 2 ^ k :=
      lt_of_lt_of_le hb (by
        have : 2 ^ 8 ≤ 2 ^ k := Nat.pow_le_pow_right (by decide) (not_lt.mp h8)
        simpa using this)
    rw [Nat.testBit_eq_false_of_lt hlt, Bool.false_and]

/-! ## Lemmas about `loop()` and runs of it -/

theorem wrapInt_ge (w : Nat) (x : Int) : -(2 : Int) ^ (w - 1) ≤ wrapInt w x := by
  unfold wrapInt
  have h : (0 : Int) ≤ (x + 2 ^ (w - 1)) % 2 ^ w :=
    Int.emod_nonneg _ (by positivity)
  linarith

theorem wrapInt_le (w : Nat) (x : Int) (hx : -(2 : Int) ^ (w - 1) ≤ x) :
    wrapInt w x ≤ x := by
  unfold wrapInt
  have h0 : (0 : Int) ≤ x + 2 ^ (w - 1) := by linarith
  have hp : (0 : Int) ≤ 2 ^ w := by positivity
  have hd : (0 : Int) ≤ (x + 2 ^ (w - 1)) / 2 ^ w := Int.ediv_nonneg h0 hp
  have hm := mul_nonneg hp hd
  rw [Int.emod_def]
  linarith

theorem calls_append (l1 l2 : List Event) : calls (l1 ++ l2) = calls l1 ++ calls l2 := by
  induction l1 with
  | nil => rfl
  | cons e t ih => cases e <;> simp [calls, ih]

theorem arbiter_testIteration (t : Target) (s : RobotState) (i : TickInput) :
    (arbiter t s i).1.testIteration = s.testIteration := by
  rcases bands_exactly_one s.meas with ⟨h1, h2, h3⟩ | ⟨h1, h2, h3⟩ | ⟨h1, h2, h3⟩
  · rw [arbiter_of_approach t s i h1]
    unfold approachController
    simp only []
    split_ifs <;> simp [approachError, approachIntegral] <;> split_ifs <;> rfl
  · rw [arbiter_of_follow t s i ((wallFollowBand_iff _).1 h2).1 ((wallFollowBand_iff _).1 h2).2]
  · rw [arbiter_of_far t s i ((wanderBand_iff _).1 h3)]
    unfold wanderController
    simp only []
    split_ifs <;> rfl

theorem loop_begin (t : Target) (s : RobotState) (i : TickInput)
    (hs : s.state = STATE_BEGIN) :
    loop t s i =
      ({ s with behaviorState := 0, testIteration := 0, meas := 0, eT := 0,
                eT_deltaT := 0, ddt_eT := 0, iEt := 0,
                wallFollowState := WALL_FOLLOW_ARCH, state := STATE_SENSE }, []) := by
  unfold loop
  simp [hs]

theorem loop_sense (t : Target) (s : RobotState) (i : TickInput)
    (hs : s.state = STATE_SENSE) :
    loop t s i =
      ({ s with distance := i.reading2, state := STATE_THINK },
       [Event.getDistance, Event.delay 100, Event.getDistance]) := by
  unfold loop
  simp [hs, STATE_SENSE, STATE_BEGIN]

theorem loop_think (t : Target) (s : RobotState) (i : TickInput)
    (hs : s.state = STATE_THINK) :
    loop t s i =
      ({ s with inches := inchesOf t s.distance,
                meas := inchesOf t s.distance, state := STATE_ACT }, []) := by
  unfold loop
  simp [hs, STATE_SENSE, STATE_BEGIN, STATE_THINK]

/-- One Sense-Think-Act cycle whose ACT tick finds motion complete. -/
theorem run_cycle (t : Target) (s : RobotState) (a b c : TickInput)
    (hs : s.state = STATE_SENSE) (hc : c.motionComplete = true)
    (hlo : -(2 : Int) ^ (t.intBits - 1) ≤ s.testIteration)
    (hhi : s.testIteration + 1 < NUM_ITERATIONS) :
    (run t s [a, b, c]).1.state = STATE_SENSE ∧
    -(2 : Int) ^ (t.intBits - 1) ≤ (run t s [a, b, c]).1.testIteration ∧
    (run t s [a, b, c]).1.testIteration ≤ s.testIteration + 1 ∧
    calls (run t s [a, b, c]).2 =
      [if approachBand (inchesOf t a.reading2) then Controller.approach
       else if wallFollowBand (inchesOf t a.reading2) then Controller.wallFollow
       else Controller.wander] := by
  have h1 := loop_sense t s a hs
  have h2 := loop_think t { s with distance := a.reading2, state := STATE_THINK } b rfl
  have h3 := loop_act_complete t
    { s with distance := a.reading2, inches := inchesOf t a.reading2,
             meas := inchesOf t a.reading2, state := STATE_ACT } c rfl hc
  have hle : wrapInt t.intBits (s.testIteration + 1) ≤ s.testIteration + 1 :=
    wrapInt_le t.intBits _ (by have := wrapInt_ge t.intBits 0; linarith)
  have hlt : wrapInt t.intBits (s.testIteration + 1) < NUM_ITERATIONS := lt_of_le_of_lt hle hhi
  simp only [run, h1, h2, h3, arbiter_testIteration, hlt, if_true, List.append_nil,
    List.nil_append, List.cons_append, calls, calls_arbiter]
  exact ⟨trivial, wrapInt_ge t.intBits _, hle, trivial⟩

theorem run_cons (t : Target) (s : RobotState) (i : TickInput) (l : List TickInput) :
    run t s (i :: l) =
      ((run t (loop t s i).1 l).1, (loop t s i).2 ++ (run t (loop t s i).1 l).2) := rfl

theorem run_append (t : Target) (l1 l2 : List TickInput) (s : RobotState) :
    run t s (l1 ++ l2) =
      ((run t (run t s l1).1 l2).1, (run t s l1).2 ++ (run t (run t s l1).1 l2).2) := by
  induction l1 generalizing s with
  | nil => simp [run]
  | cons i tl ih => simp [run, ih, List.append_assoc]

/-- Any number of Sense-Think-Act cycles below the iteration cap, each ACT
tick finding motion complete: the controllers entered are, cycle by cycle,
those of the band of the converted reading. -/
theorem run_cycles (t : Target) :
    ∀ (cs : List (TickInput × TickInput × TickInput)) (s : RobotState),
      s.state = STATE_SENSE → -(2 : Int) ^ (t.intBits - 1) ≤ s.testIteration →
      s.testIteration + cs.length < NUM_ITERATIONS →
      (∀ c ∈ cs, c.2.2.motionComplete = true) →
      (run t s (cycleInputs cs)).1.state = STATE_SENSE ∧
      calls (run t s (cycleInputs cs)).2 =
        cs.map (fun c =>
          if approachBand (inchesOf t c.1.reading2) then Controller.approach
          else if wallFollowBand (inchesOf t c.1.reading2) then Controller.wallFollow
          else Controller.wander)
  | [], s, hs, _, _, _ => ⟨hs, rfl⟩
  | c :: cs, s, hs, hlo, hhi, hc => by
    have hlen : ((c :: cs).length : Int) = (cs.length : Int) + 1 := by simp
    rw [hlen] at hhi
    have hpos : (0 : Int) ≤ cs.length := Int.natCast_nonneg _
    obtain ⟨h1, h2, h3, h4⟩ := run_cycle t s c.1 c.2.1 c.2.2 hs
      (hc c (List.mem_cons_self _ _)) hlo (by linarith)
    obtain ⟨h5, h6⟩ := run_cycles t cs (run t s [c.1, c.2.1, c.2.2]).1 h1 h2
      (by linarith) (fun d hd => hc d (List.mem_cons_of_mem _ hd))
    have hsplit : cycleInputs (c :: cs) = [c.1, c.2.1, c.2.2] ++ cycleInputs cs := rfl
    rw [hsplit, run_append]
    exact ⟨h5, by rw [calls_append, h4, h6]; rfl⟩

theorem band_values :
    approachBand 25 = false ∧ wallFollowBand 25 = false ∧
    approachBand 8 = true ∧
    approachBand 6 = false ∧ wallFollowBand 6 = true := by
  refine ⟨?_, ?_, ?_, ?_, ?_⟩
  · exact approachBand_false_of_far 25 (by norm_num)
  · exact wallFollowBand_false_of_far 25 (by norm_num)
  · exact approachBand_of_mem 8 (by norm_num) (by norm_num)
  · exact approachBand_false_of_follow 6 (by norm_num) (by norm_num)
  · exact (wallFollowBand_iff 6).2 ⟨by norm_num, by norm_num⟩

/-- The scenario of five cycles with measurements 25, 25, 8, 6, 6, for any
answers of the services consistent with it. -/
theorem scenario_run (t : Target)
    (b s1 t1 a1 s2 t2 a2 s3 t3 a3 s4 t4 a4 s5 t5 a5 : TickInput)
    (hm1 : inchesOf t s1.reading2 = 25) (hm2 : inchesOf t s2.reading2 = 25)
    (hm3 : inchesOf t s3.reading2 = 8) (hm4 : inchesOf t s4.reading2 = 6)
    (hm5 : inchesOf t s5.reading2 = 6)
    (hc1 : a1.motionComplete = true) (hc2 : a2.motionComplete = true)
    (hc3 : a3.motionComplete = true) (hc4 : a4.motionComplete = true)
    (hc5 : a5.motionComplete = true) :
    calls (run t initialState
      [b, s1, t1, a1, s2, t2, a2, s3, t3, a3, s4, t4, a4, s5, t5, a5]).2 =
      [Controller.wander, Controller.wander, Controller.approach,
       Controller.wallFollow, Controller.wallFollow] ∧
    (run t initialState
      [b, s1, t1, a1, s2, t2, a2, s3, t3, a3, s4, t4, a4, s5, t5]).1.state = STATE_ACT ∧
    (run t initialState
      [b, s1, t1, a1, s2, t2, a2, s3, t3, a3, s4, t4, a4, s5, t5]).1.meas = 6 ∧
    motionCommands (loop t (run t initialState
      [b, s1, t1, a1, s2, t2, a2, s3, t3, a3, s4, t4, a4, s5, t5]).1 a5).2 =
      [Event.turnFor 180 15 true, Event.moveArch 10 25 true] := by
  obtain ⟨v1, v2, v3, v4, v5⟩ := band_values
  have hb := loop_begin t initialState b rfl
  have hfull := run_cycles t
    [(s1, t1, a1), (s2, t2, a2), (s3, t3, a3), (s4, t4, a4), (s5, t5, a5)]
    (loop t initialState b).1 (by rw [hb]) 
    (by rw [hb]; have := wrapInt_ge t.intBits 0; show -(2 : Int) ^ (t.intBits - 1) ≤ 0; have h2 : (0:Int) ≤ 2 ^ (t.intBits - 1) := by positivity
        linarith)
    (by rw [hb]; simp [NUM_ITERATIONS])
    (by simp [hc1, hc2, hc3, hc4, hc5])
  have hpre := run_cycles t
    [(s1, t1, a1), (s2, t2, a2), (s3, t3, a3), (s4, t4, a4)]
    (loop t initialState b).1 (by rw [hb]) 
    (by rw [hb]; show -(2 : Int) ^ (t.intBits - 1) ≤ 0; have h2 : (0:Int) ≤ 2 ^ (t.intBits - 1) := by positivity
        linarith)
    (by rw [hb]; simp [NUM_ITERATIONS])
    (by simp [hc1, hc2, hc3, hc4])
  have hsplit : [b, s1, t1, a1, s2, t2, a2, s3, t3, a3, s4, t4, a4, s5, t5] =
      b :: (cycleInputs [(s1, t1, a1), (s2, t2, a2), (s3, t3, a3), (s4, t4, a4)]
        ++ [s5, t5]) := rfl
  have hstate : (run t initialState
      [b, s1, t1, a1, s2, t2, a2, s3, t3, a3, s4, t4, a4, s5, t5]).1.state = STATE_ACT ∧
    (run t initialState
      [b, s1, t1, a1, s2, t2, a2, s3, t3, a3, s4, t4, a4, s5, t5]).1.meas = 6 := by
    rw [hsplit, run_cons, run_append]
    have hS := hpre.1
    generalize (run t (loop t initialState b).1
      (cycleInputs [(s1, t1, a1), (s2, t2, a2), (s3, t3, a3), (s4, t4, a4)])).1 = S4 at hS
    have h1 := loop_sense t S4 s5 hS
    have h2 := loop_think t { S4 with distance := s5.reading2, state := STATE_THINK } t5 rfl
    simp only [run, h1, h2]
    exact ⟨trivial, hm5⟩
  refine ⟨?_, hstate.1, hstate.2, ?_⟩
  · have hall : [b, s1, t1, a1, s2, t2, a2, s3, t3, a3, s4, t4, a4, s5, t5, a5] =
        b :: cycleInputs
          [(s1, t1, a1), (s2, t2, a2), (s3, t3, a3), (s4, t4, a4), (s5, t5, a5)] := rfl
    rw [hall, run_cons, calls_append, hfull.2, hb]
    simp [calls, hm1, hm2, hm3, hm4, hm5, v1, v2, v3, v4, v5]
  · rw [loop_act_complete t _ a5 hstate.1 hc5,
      arbiter_of_follow t _ a5 (by rw [hstate.2]; norm_num) (by rw [hstate.2]; norm_num)]
    simp [motionCommands, Event.isMotion, WALL_FOLLOW_TURNANGLE, WALL_FOLLOW_TURNRATE]

/-! ## Lemmas about `approachController` when it acts -/

theorem approachIntegral_iEt (s : RobotState) :
    (approachIntegral (approachError s)).iEt =
      if fabs s.actuation > 10 then 0 else fadd s.iEt (fsub s.ref s.meas) := by
  unfold approachIntegral approachError
  by_cases h : fabs s.actuation > 10
  · simp [h]
  · simp [h]

theorem pidValue_eq (s : RobotState) :
    pidValue s =
      fadd (fadd (fmul (f32 K_P) (fsub s.ref s.meas))
                 (fmul (f32 K_I)
                   (if fabs s.actuation > 10 then 0 else fadd s.iEt (fsub s.ref s.meas))))
           (fmul (f32 K_D) (fsub (fsub s.ref s.meas) s.eT_deltaT)) := by
  unfold pidValue controlLaw approachIntegral approachError
  by_cases h : fabs s.actuation > 10
  · simp [h]
  · simp [h]

theorem approachController_converge (s : RobotState)
    (hm : maskSet s.behaviorState MASK_APPROACH = true)
    (he : fabs (fsub s.ref s.meas) > 0.5)
    (hc : fabs (pidValue s) < 0.2 ∨ fabs (fsub s.ref s.meas) < 0.1) :
    approachController s =
      ({ s with eT := 0, eT_deltaT := 0,
                ddt_eT := fsub (fsub s.ref s.meas) s.eT_deltaT,
                iEt := if fabs s.actuation > 10 then 0
                       else fadd s.iEt (fsub s.ref s.meas),
                actuation := 0 },
       [Event.enter Controller.approach s.behaviorState, Event.idle]) := by
  have hg : maskSet (approachError s).behaviorState MASK_APPROACH = true ∧
      fabs (approachError s).eT_deltaT > 0.5 := ⟨hm, he⟩
  have hc2 : fabs (controlLaw (approachIntegral (approachError s))
        (f32 K_P) (f32 K_I) (f32 K_D)) < 0.2 ∨
      fabs (approachIntegral (approachError s)).eT_deltaT < 0.1 := by
    rcases hc with h | h
    · exact Or.inl h
    · refine Or.inr ?_
      unfold approachIntegral approachError
      split_ifs <;> exact h
  unfold approachController
  simp only [hg, and_self, if_true, hc2]
  unfold approachIntegral approachError
  by_cases h : fabs s.actuation > 10
  · simp [h]
  · simp [h]

theorem approachController_drive (s : RobotState)
    (hm : maskSet s.behaviorState MASK_APPROACH = true)
    (he : fabs (fsub s.ref s.meas) > 0.5)
    (hn : ¬ (fabs (pidValue s) < 0.2 ∨ fabs (fsub s.ref s.meas) < 0.1)) :
    approachController s =
      ({ s with eT := s.eT_deltaT, eT_deltaT := fsub s.ref s.meas,
                ddt_eT := fsub (fsub s.ref s.meas) s.eT_deltaT,
                iEt := if fabs s.actuation > 10 then 0
                       else fadd s.iEt (fsub s.ref s.meas),
                actuation := pidValue s },
       [Event.enter Controller.approach s.behaviorState,
        Event.driveFor (if pidValue s < 0 then 1 else -1) (pidValue s) false]) := by
  have hg : maskSet (approachError s).behaviorState MASK_APPROACH = true ∧
      fabs (approachError s).eT_deltaT > 0.5 := ⟨hm, he⟩
  have hp : controlLaw (approachIntegral (approachError s))
      (f32 K_P) (f32 K_I) (f32 K_D) = pidValue s := rfl
  have hc2 : ¬ (fabs (controlLaw (approachIntegral (approachError s))
        (f32 K_P) (f32 K_I) (f32 K_D)) < 0.2 ∨
      fabs (approachIntegral (approachError s)).eT_deltaT < 0.1) := by
    intro h
    apply hn
    rcases h with h | h
    · exact Or.inl h
    · refine Or.inr ?_
      unfold approachIntegral approachError at h
      split_ifs at h <;> exact h
  unfold approachController
  simp only [hg, and_self, if_true, hc2, if_false, hp]
  unfold approachIntegral approachError
  have hn3 : 0.2 ≤ fabs (pidValue s) ∧ 0.1 ≤ fabs (fsub s.ref s.meas) :=
    ⟨not_lt.mp (fun h => hn (Or.inl h)), not_lt.mp (fun h => hn (Or.inr h))⟩
  by_cases h : fabs s.actuation > 10 <;> by_cases h2 : pidValue s < 0 <;>
    simp [h, h2] <;> exact hn3

theorem loop_act_busy (t : Target) (s : RobotState) (i : TickInput)
    (hs : s.state = STATE_ACT) (hc : i.motionComplete = false) :
    loop t s i =
      ({ s with
          testIteration := wrapInt t.intBits (s.testIteration + 1),
          state := if wrapInt t.intBits (s.testIteration + 1) < NUM_ITERATIONS
                   then STATE_SENSE else STATE_END },
       [Event.delay 5]) := by
  unfold loop
  simp [hs, hc, STATE_ACT, STATE_BEGIN, STATE_SENSE, STATE_THINK]

theorem approachController_skip (s : RobotState)
    (h : ¬ (maskSet s.behaviorState MASK_APPROACH = true ∧
        fabs (fsub s.ref s.meas) > 0.5)) :
    approachController s =
      (approachError s, [Event.enter Controller.approach s.behaviorState]) := by
  have hg : ¬ (maskSet (approachError s).behaviorState MASK_APPROACH = true ∧
      fabs (approachError s).eT_deltaT > 0.5) := h
  unfold approachController
  simp only [hg, if_false]

theorem idle_mem_approachController (s : RobotState) :
    Event.idle ∈ (approachController s).2 ↔
      (maskSet s.behaviorState MASK_APPROACH = true ∧
        fabs (fsub s.ref s.meas) > 0.5 ∧ fabs (pidValue s) < 0.2) := by
  by_cases hg : maskSet s.behaviorState MASK_APPROACH = true ∧
      fabs (fsub s.ref s.meas) > 0.5
  · have hB : ¬ fabs (fsub s.ref s.meas) < 0.1 := by
      intro hB
      have h5 := hg.2
      have : (0.5 : ℚ) < 0.1 := lt_trans h5 hB
      norm_num at this
    by_cases hc : fabs (pidValue s) < 0.2
    · rw [approachController_converge s hg.1 hg.2 (Or.inl hc)]
      simp [hg.1, hg.2, hc]
    · have hn : ¬ (fabs (pidValue s) < 0.2 ∨ fabs (fsub s.ref s.meas) < 0.1) := by
        rintro (h | h)
        · exact hc h
        · exact hB h
      rw [approachController_drive s hg.1 hg.2 hn]
      simp [hc]
  · rw [approachController_skip s hg]
    constructor
    · intro h
      simp at h
    · rintro ⟨h1, h2, _⟩
      exact absurd ⟨h1, h2⟩ hg

theorem approachControllerFirstDisjunct_eq (s : RobotState) :
    approachControllerFirstDisjunct s = approachController s := by
  by_cases hg : maskSet s.behaviorState MASK_APPROACH = true ∧
      fabs (fsub s.ref s.meas) > 0.5
  · have hg2 : maskSet (approachError s).behaviorState MASK_APPROACH = true ∧
        fabs (approachError s).eT_deltaT > 0.5 := hg
    have hB : ¬ fabs (approachIntegral (approachError s)).eT_deltaT < 0.1 := by
      intro hB
      have h5 : (0.5 : ℚ) < fabs (approachIntegral (approachError s)).eT_deltaT := by
        unfold approachIntegral
        split_ifs <;> exact hg2.2
      have : (0.5 : ℚ) < 0.1 := lt_trans h5 hB
      norm_num at this
    unfold approachControllerFirstDisjunct approachController
    simp only [hg2, and_self, if_true, hB, or_false]
  · have hg2 : ¬ (maskSet (approachError s).behaviorState MASK_APPROACH = true ∧
        fabs (approachError s).eT_deltaT > 0.5) := hg
    unfold approachControllerFirstDisjunct approachController
    simp only [hg2, if_false]

/-! ## Lemmas about the behaviour flags -/

theorem approachController_behaviorState (s : RobotState) :
    (approachController s).1.behaviorState = s.behaviorState := by
  unfold approachController
  simp only []
  split_ifs <;> simp [approachError, approachIntegral] <;> split_ifs <;> rfl

theorem wanderController_behaviorState (t : Target) (s : RobotState) (i : TickInput)
    (hm : maskSet s.behaviorState MASK_WANDER = true) :
    (wanderController t s i).1.behaviorState = clearMask s.behaviorState MASK_WANDER := by
  unfold wanderController
  simp only [hm, if_true]
  split_ifs <;> rfl

theorem wallFollowController_behaviorState (s : RobotState)
    (hm : maskSet s.behaviorState MASK_WALLFOLLOW = true) :
    (wallFollowController s).1.behaviorState =
      clearMask s.behaviorState MASK_WALLFOLLOW := by
  simp only [wallFollowController, wallFollowLoop_of_set s hm]

theorem arbiter_enter (t : Target) (s : RobotState) (i : TickInput) (h0 : s.behaviorState = 0) :
    (arbiter t s i).1.behaviorState = 0 ∧
    ((calls (arbiter t s i).2 = [Controller.approach] ∧
        entryFlags (arbiter t s i).2 = [MASK_APPROACH]) ∨
     (calls (arbiter t s i).2 = [Controller.wallFollow] ∧
        entryFlags (arbiter t s i).2 = [MASK_WALLFOLLOW]) ∨
     (calls (arbiter t s i).2 = [Controller.wander] ∧
        entryFlags (arbiter t s i).2 = [MASK_WANDER])) := by
  rcases bands_exactly_one s.meas with ⟨h1, _, _⟩ | ⟨_, h2, _⟩ | ⟨_, _, h3⟩
  · rw [arbiter_of_approach t s i h1]
    refine ⟨?_, Or.inl ⟨calls_approachController _, ?_⟩⟩
    · show clearMask (approachController _).1.behaviorState MASK_APPROACH = 0
      rw [approachController_behaviorState]
      show clearMask (setMask s.behaviorState MASK_APPROACH) MASK_APPROACH = 0
      rw [h0]
      decide
    · rw [entryFlags_approachController]
      show [setMask s.behaviorState MASK_APPROACH] = [MASK_APPROACH]
      rw [h0]
      decide
  · rw [arbiter_of_follow t s i ((wallFollowBand_iff _).1 h2).1 ((wallFollowBand_iff _).1 h2).2]
    refine ⟨?_, Or.inr (Or.inl ⟨?_, ?_⟩)⟩
    · show clearMask (setMask s.behaviorState MASK_WALLFOLLOW) MASK_WALLFOLLOW = 0
      rw [h0]
      decide
    · simp [calls]
    · simp only [entryFlags, h0]
      decide
  · rw [arbiter_of_far t s i ((wanderBand_iff _).1 h3)]
    refine ⟨?_, Or.inr (Or.inr ⟨calls_wanderController t _ _, ?_⟩)⟩
    · rw [wanderController_behaviorState t _ _ (maskSet_setMask _ _ (by decide))]
      show clearMask (setMask s.behaviorState MASK_WANDER) MASK_WANDER = 0
      rw [h0]
      decide
    · rw [entryFlags_wanderController]
      show [setMask s.behaviorState MASK_WANDER] = [MASK_WANDER]
      rw [h0]
      decide

theorem loop_end (t : Target) (s : RobotState) (i : TickInput)
    (hs : s.state = STATE_END) : loop t s i = (s, [Event.idle]) := by
  unfold loop
  simp [hs, STATE_END, STATE_ACT, STATE_BEGIN, STATE_SENSE, STATE_THINK]

theorem loop_other (t : Target) (s : RobotState) (i : TickInput)
    (h1 : s.state ≠ STATE_BEGIN) (h2 : s.state ≠ STATE_SENSE)
    (h3 : s.state ≠ STATE_THINK) (h4 : s.state ≠ STATE_ACT)
    (h5 : s.state ≠ STATE_END) : loop t s i = (s, []) := by
  unfold loop
  simp [h1, h2, h3, h4, h5]

theorem loop_enter (t : Target) (s : RobotState) (i : TickInput)
    (h0 : s.behaviorState = 0) :
    (loop t s i).1.behaviorState = 0 ∧
    ((calls (loop t s i).2 = [] ∧ entryFlags (loop t s i).2 = []) ∨
     (calls (loop t s i).2 = [Controller.approach] ∧
        entryFlags (loop t s i).2 = [MASK_APPROACH]) ∨
     (calls (loop t s i).2 = [Controller.wallFollow] ∧
        entryFlags (loop t s i).2 = [MASK_WALLFOLLOW]) ∨
     (calls (loop t s i).2 = [Controller.wander] ∧
        entryFlags (loop t s i).2 = [MASK_WANDER])) ∧
    (s.state ≠ STATE_ACT → calls (loop t s i).2 = []) := by
  by_cases h1 : s.state = STATE_BEGIN
  · rw [loop_begin t s i h1]
    exact ⟨rfl, Or.inl ⟨rfl, rfl⟩, fun _ => rfl⟩
  by_cases h2 : s.state = STATE_SENSE
  · rw [loop_sense t s i h2]
    exact ⟨h0, Or.inl ⟨rfl, rfl⟩, fun _ => rfl⟩
  by_cases h3 : s.state = STATE_THINK
  · rw [loop_think t s i h3]
    exact ⟨h0, Or.inl ⟨rfl, rfl⟩, fun _ => rfl⟩
  by_cases h4 : s.state = STATE_ACT
  · by_cases hc : i.motionComplete = true
    · rw [loop_act_complete t s i h4 hc]
      obtain ⟨ha, hb⟩ := arbiter_enter t s i h0
      exact ⟨ha, Or.inr hb, fun h => absurd h4 h⟩
    · rw [loop_act_busy t s i h4 (by simpa using hc)]
      exact ⟨h0, Or.inl ⟨rfl, rfl⟩, fun _ => rfl⟩
  by_cases h5 : s.state = STATE_END
  · rw [loop_end t s i h5]
    exact ⟨h0, Or.inl ⟨rfl, rfl⟩, fun _ => rfl⟩
  · rw [loop_other t s i h1 h2 h3 h4 h5]
    exact ⟨h0, Or.inl ⟨rfl, rfl⟩, fun _ => rfl⟩

theorem run_behaviorState (t : Target) (l : List TickInput) :
    ∀ s : RobotState, s.behaviorState = 0 → (run t s l).1.behaviorState = 0 := by
  induction l with
  | nil => intro s h0; exact h0
  | cons i tl ih =>
    intro s h0
    rw [run_cons]
    exact ih _ (loop_enter t s i h0).1

/-! ## Lemmas about the iteration counter and the schedule of `loop()` -/

theorem wrapInt_16_lt (x : Int) : wrapInt 16 x < 32768 := by
  unfold wrapInt
  have h : (x + 2 ^ (16 - 1)) % 2 ^ 16 < 2 ^ 16 := Int.emod_lt_of_pos _ (by norm_num)
  norm_num at h ⊢
  linarith

theorem wrapInt_16_ge (x : Int) : -32768 ≤ wrapInt 16 x := by
  have h := wrapInt_ge 16 x
  norm_num at h
  exact h

theorem wrapInt_eq_self (w : Nat) (x : Int) (hw : (50000 : Int) < 2 ^ (w - 1))
    (h1 : 0 ≤ x) (h2 : x ≤ 50000) : wrapInt w x = x := by
  have hw1 : 1 ≤ w := by
    rcases Nat.eq_zero_or_pos w with h | h
    · subst h
      norm_num at hw
    · exact h
  have hpow : (2 : Int) ^ w = 2 * 2 ^ (w - 1) := by
    have : w = (w - 1) + 1 := by omega
    conv_lhs => rw [this, pow_succ]
    ring
  unfold wrapInt
  rw [hpow, Int.emod_eq_of_lt (by linarith) (by linarith)]
  ring

theorem loop_act (t : Target) (s : RobotState) (i : TickInput)
    (hs : s.state = STATE_ACT) :
    (loop t s i).1.testIteration = wrapInt t.intBits (s.testIteration + 1) ∧
    (loop t s i).1.state =
      (if wrapInt t.intBits (s.testIteration + 1) < NUM_ITERATIONS
       then STATE_SENSE else STATE_END) := by
  by_cases hc : i.motionComplete = true
  · rw [loop_act_complete t s i hs hc]
    simp only [arbiter_testIteration]
    exact ⟨trivial, trivial⟩
  · rw [loop_act_busy t s i hs (by simpa using hc)]
    exact ⟨rfl, rfl⟩

theorem loop_cycleState_16 (t : Target) (ht : t.intBits = 16) (n : Nat)
    (s : RobotState) (i : TickInput) (h : s.state = cycleState n) :
    (loop t s i).1.state = cycleState (n + 1) := by
  unfold cycleState at h ⊢
  have hn : n + 1 ≠ 0 := by omega
  simp only [hn, if_false, Nat.add_sub_cancel]
  split_ifs at h with h1 h2 h3
  · subst h1
    rw [loop_begin t s i h]
    simp
  · rw [loop_sense t s i h]
    have e1 : ¬ n % 3 = 0 := by omega
    have e2 : n % 3 = 1 := by omega
    simp [e1, e2]
  · rw [loop_think t s i h]
    have e1 : ¬ n % 3 = 0 := by omega
    have e2 : ¬ n % 3 = 1 := by omega
    simp [e1, e2]
  · rw [(loop_act t s i h).2, ht]
    have e1 : n % 3 = 0 := by omega
    have hlt : wrapInt 16 (s.testIteration + 1) < NUM_ITERATIONS :=
      lt_trans (wrapInt_16_lt _) (by decide)
    simp [e1, hlt]

theorem run_cycleState_16 (t : Target) (ht : t.intBits = 16) (l : List TickInput) :
    ∀ (n : Nat) (s : RobotState), s.state = cycleState n →
      (run t s l).1.state = cycleState (n + l.length) := by
  induction l with
  | nil => intro n s h; exact h
  | cons i tl ih =>
    intro n s h
    rw [run_cons]
    have h2 := ih (n + 1) _ (loop_cycleState_16 t ht n s i h)
    rw [h2, List.length_cons]
    congr 1
    omega

theorem cycleState_ne_end (n : Nat) : cycleState n ≠ STATE_END := by
  unfold cycleState
  split_ifs <;> decide

theorem loop_schedule (t : Target) (hw : (50000 : Int) < 2 ^ (t.intBits - 1))
    (n : Nat) (s : RobotState) (i : TickInput)
    (h : s.state = scheduleState n)
    (ht : 1 ≤ n → s.testIteration = scheduleIteration n) :
    (loop t s i).1.state = scheduleState (n + 1) ∧
    (loop t s i).1.testIteration = scheduleIteration (n + 1) := by
  unfold scheduleState cycleState at h
  unfold scheduleIteration at ht
  unfold scheduleState cycleState scheduleIteration
  have hn : n + 1 ≠ 0 := by omega
  simp only [hn, if_false, Nat.add_sub_cancel]
  split_ifs at h with h0 h1 h2 h3
  · have e0 : 150001 ≤ n + 1 := by omega
    have ht2 := ht (by omega)
    simp only [h0, if_true] at ht2
    rw [loop_end t s i h]
    simp only [e0, if_true]
    exact ⟨h, ht2⟩
  · subst h1
    rw [loop_begin t s i h]
    simp
  · have ht2 := ht (by omega)
    simp only [h0, if_false] at ht2
    rw [loop_sense t s i h]
    have e0 : ¬ 150001 ≤ n + 1 := by omega
    have e1 : ¬ n % 3 = 0 := by omega
    have e2 : n % 3 = 1 := by omega
    have e3 : n / 3 = (n - 1) / 3 := by omega
    simp [e0, e1, e2, e3, ht2]
  · have ht2 := ht (by omega)
    simp only [h0, if_false] at ht2
    rw [loop_think t s i h]
    have e0 : ¬ 150001 ≤ n + 1 := by omega
    have e1 : ¬ n % 3 = 0 := by omega
    have e2 : ¬ n % 3 = 1 := by omega
    have e3 : n / 3 = (n - 1) / 3 := by omega
    simp [e0, e1, e2, e3, ht2]
  · have ht2 := ht (by omega)
    simp only [h0, if_false] at ht2
    obtain ⟨a1, a2⟩ := loop_act t s i h
    have e1 : n % 3 = 0 := by omega
    have e3 : n / 3 = (n - 1) / 3 + 1 := by omega
    have hb : (n - 1) / 3 + 1 ≤ 50000 := by omega
    have hwrap : wrapInt t.intBits (s.testIteration + 1) = (((n - 1) / 3 + 1 : Nat) : Int) := by
      rw [ht2, wrapInt_eq_self t.intBits _ hw (by positivity) (by exact_mod_cast hb)]
      push_cast
      ring
    rw [a1, a2, hwrap]
    by_cases hend : 150001 ≤ n + 1
    · have hv : (n - 1) / 3 + 1 = 50000 := by omega
      simp [hend, hv, NUM_ITERATIONS]
    · have hv : (n - 1) / 3 + 1 < 50000 := by omega
      have hv2 : ((((n - 1) / 3 + 1 : Nat)) : Int) < NUM_ITERATIONS := by
        unfold NUM_ITERATIONS
        exact_mod_cast hv
      simp only [hend, if_false, hv2, if_true, e1, e3]
      exact ⟨trivial, trivial⟩

theorem run_schedule (t : Target) (hw : (50000 : Int) < 2 ^ (t.intBits - 1)) (l : List TickInput) :
    ∀ (n : Nat) (s : RobotState), s.state = scheduleState n →
      (1 ≤ n → s.testIteration = scheduleIteration n) →
      (run t s l).1.state = scheduleState (n + l.length) ∧
      (1 ≤ n + l.length → (run t s l).1.testIteration = scheduleIteration (n + l.length)) := by
  induction l with
  | nil => intro n s h ht; exact ⟨h, ht⟩
  | cons i tl ih =>
    intro n s h ht
    rw [run_cons]
    obtain ⟨h1, h2⟩ := loop_schedule t hw n s i h ht
    have h3 := ih (n + 1) _ h1 (fun _ => h2)
    have e : n + (i :: tl).length = n + 1 + tl.length := by
      rw [List.length_cons]
      omega
    rw [e]
    exact h3

theorem scheduleState_eq_end (n : Nat) : scheduleState n = STATE_END ↔ 150001 ≤ n := by
  unfold scheduleState
  constructor
  · intro h
    by_contra hn
    simp only [hn, if_false] at h
    exact cycleState_ne_end n h
  · intro h
    simp [h]

/-! ## Lemmas about the sign of the control law on a reset error state -/

theorem pidValue_fresh_close (s : RobotState) (h1 : s.eT_deltaT = 0) (h2 : s.iEt = 0)
    (h3 : s.actuation = 0) (he : 1 / 2 ≤ fsub s.ref s.meas) : 2 ≤ pidValue s := by
  obtain ⟨_, _, _, gp, gi, gd⟩ := gains_conversion
  have ha : ¬ fabs (0 : ℚ) > 10 := by norm_num [fabs]
  rw [pidValue_eq, h1, h2, h3, if_neg ha, gp, gi, gd]
  generalize fsub s.ref s.meas = e at he
  have hA : 2 ≤ fmul (4928307 / 1048576) e := by
    apply f32_ge_two
    linarith
  have hB : 0 ≤ fmul (5368709 / 536870912) (fadd 0 e) := by
    apply f32_nonneg
    apply mul_nonneg (by norm_num)
    apply f32_nonneg
    linarith
  have hC : 0 ≤ fmul (9646899 / 4194304) (fsub e 0) := by
    apply f32_nonneg
    apply mul_nonneg (by norm_num)
    apply f32_nonneg
    linarith
  have hAB : 2 ≤ fadd (fmul (4928307 / 1048576) e)
      (fmul (5368709 / 536870912) (fadd 0 e)) := by
    apply f32_ge_two
    linarith
  apply f32_ge_two
  linarith

theorem pidValue_fresh_far (s : RobotState) (h1 : s.eT_deltaT = 0) (h2 : s.iEt = 0)
    (h3 : s.actuation = 0) (he : fsub s.ref s.meas ≤ -(1 / 2)) : pidValue s ≤ -2 := by
  obtain ⟨_, _, _, gp, gi, gd⟩ := gains_conversion
  have ha : ¬ fabs (0 : ℚ) > 10 := by norm_num [fabs]
  rw [pidValue_eq, h1, h2, h3, if_neg ha, gp, gi, gd]
  generalize fsub s.ref s.meas = e at he
  have hA : fmul (4928307 / 1048576) e ≤ -2 := by
    apply f32_le_neg_two
    linarith
  have hB : fmul (5368709 / 536870912) (fadd 0 e) ≤ 0 := by
    apply f32_nonpos
    apply mul_nonpos_of_nonneg_of_nonpos (by norm_num)
    apply f32_nonpos
    linarith
  have hC : fmul (9646899 / 4194304) (fsub e 0) ≤ 0 := by
    apply f32_nonpos
    apply mul_nonpos_of_nonneg_of_nonpos (by norm_num)
    apply f32_nonpos
    linarith
  have hAB : fadd (fmul (4928307 / 1048576) e)
      (fmul (5368709 / 536870912) (fadd 0 e)) ≤ -2 := by
    apply f32_le_neg_two
    linarith
  apply f32_le_neg_two
  linarith

theorem approachController_fresh_close (s : RobotState)
    (hm : maskSet s.behaviorState MASK_APPROACH = true)
    (h1 : s.eT_deltaT = 0) (h2 : s.iEt = 0) (h3 : s.actuation = 0)
    (hc : s.meas < s.ref - 0.5) :
    0 ≤ (approachController s).1.actuation ∧
    (∀ d v b, Event.driveFor d v b ∈ (approachController s).2 → d = -1) ∧
    (fabs (fsub s.ref s.meas) > 0.5 →
      2 ≤ (approachController s).1.actuation ∧
      motionCommands (approachController s).2 =
        [Event.driveFor (-1) (approachController s).1.actuation false]) := by
  have he : 1 / 2 ≤ fsub s.ref s.meas := by
    apply f32_ge_half
    norm_num at hc ⊢
    linarith
  have hp := pidValue_fresh_close s h1 h2 h3 he
  by_cases hg : fabs (fsub s.ref s.meas) > 0.5
  · have hn : ¬ (fabs (pidValue s) < 0.2 ∨ fabs (fsub s.ref s.meas) < 0.1) := by
      rintro (h | h)
      · unfold fabs at h
        rw [abs_of_nonneg (by linarith)] at h
        norm_num at h
        linarith
      · have : (0.5 : ℚ) < 0.1 := lt_trans hg h
        norm_num at this
    have hneg : ¬ pidValue s < 0 := by linarith
    rw [approachController_drive s hm hg hn]
    simp only [hneg, if_false]
    refine ⟨by show 0 ≤ pidValue s; linarith, ?_, fun _ => ⟨hp, ?_⟩⟩
    · intro d v b hmem
      simp at hmem
      exact hmem.1
    · simp [motionCommands, Event.isMotion]
  · rw [approachController_deadband s (not_lt.mp hg)]
    refine ⟨by show 0 ≤ s.actuation; rw [h3], ?_, fun h => absurd h hg⟩
    intro d v b hmem
    simp at hmem

theorem approachController_fresh_far (s : RobotState)
    (hm : maskSet s.behaviorState MASK_APPROACH = true)
    (h1 : s.eT_deltaT = 0) (h2 : s.iEt = 0) (h3 : s.actuation = 0)
    (hc : s.meas > s.ref + 0.5) :
    (approachController s).1.actuation ≤ 0 ∧
    (∀ d v b, Event.driveFor d v b ∈ (approachController s).2 → d = 1) ∧
    (fabs (fsub s.ref s.meas) > 0.5 →
      (approachController s).1.actuation ≤ -2 ∧
      motionCommands (approachController s).2 =
        [Event.driveFor 1 (approachController s).1.actuation false]) := by
  have he : fsub s.ref s.meas ≤ -(1 / 2) := by
    apply f32_le_neg_half
    norm_num at hc ⊢
    linarith
  have hp := pidValue_fresh_far s h1 h2 h3 he
  by_cases hg : fabs (fsub s.ref s.meas) > 0.5
  · have hn : ¬ (fabs (pidValue s) < 0.2 ∨ fabs (fsub s.ref s.meas) < 0.1) := by
      rintro (h | h)
      · unfold fabs at h
        rw [abs_of_nonpos (by linarith)] at h
        norm_num at h
        linarith
      · have : (0.5 : ℚ) < 0.1 := lt_trans hg h
        norm_num at this
    have hneg : pidValue s < 0 := by linarith
    rw [approachController_drive s hm hg hn]
    simp only [hneg, if_true]
    refine ⟨by show pidValue s ≤ 0; linarith, ?_, fun _ => ⟨hp, ?_⟩⟩
    · intro d v b hmem
      simp at hmem
      exact hmem.1
    · simp [motionCommands, Event.isMotion]
  · rw [approachController_deadband s (not_lt.mp hg)]
    refine ⟨by show s.actuation ≤ 0; rw [h3], ?_, fun h => absurd h hg⟩
    intro d v b hmem
    simp at hmem

/-! ## Theorems -/

/-- C1: when `loop()` runs in `STATE_ACT`, motion is complete and
`6.25 < meas ≤ 20.0`, only the APPROACH branch runs: the flag
`MASK_APPROACH` is set at the call, the events of the tick are those of that
one call of `approachController`, it is the only controller entered, and no
`turnFor` and no `moveArch` is emitted. -/
theorem C1_approach_band_selects_approach (t : Target) (s : RobotState) (i : TickInput)
    (hs : s.state = STATE_ACT) (hc : i.motionComplete = true)
    (h1 : 6.25 < s.meas) (h2 : s.meas ≤ 20.0) :
    maskSet (setMask s.behaviorState MASK_APPROACH) MASK_APPROACH = true ∧
    (loop t s i).2 =
      (approachController
        { s with behaviorState := setMask s.behaviorState MASK_APPROACH }).2 ∧
    calls (loop t s i).2 = [Controller.approach] ∧
    entryFlags (loop t s i).2 = [setMask s.behaviorState MASK_APPROACH] ∧
    (∀ e ∈ (loop t s i).2,
      (∀ a r b, e ≠ Event.turnFor a r b) ∧ (∀ r v b, e ≠ Event.moveArch r v b)) := by
  have hb := approachBand_of_mem s.meas h1 h2
  have hl : (loop t s i).2 =
      (approachController
        { s with behaviorState := setMask s.behaviorState MASK_APPROACH }).2 := by
    rw [loop_act_complete t s i hs hc]
    simp [arbiter, hb]
  refine ⟨maskSet_setMask _ _ (by decide), hl, ?_, ?_, ?_⟩
  · rw [hl, calls_approachController]
  · rw [hl, entryFlags_approachController]
  · intro e he
    rw [hl] at he
    exact approachController_no_turn_arch _ e he

/-- Witness for C1 at `meas = 8`. -/
theorem C1_approach_band_selects_approach_witness :
    (actState 8).state = STATE_ACT ∧ (completeInput 0).motionComplete = true ∧
    6.25 < (actState 8).meas ∧ (actState 8).meas ≤ 20.0 ∧
    (maskSet (setMask (actState 8).behaviorState MASK_APPROACH) MASK_APPROACH = true ∧
    (loop atmega32u4 (actState 8) (completeInput 0)).2 =
      (approachController
        { actState 8 with
          behaviorState := setMask (actState 8).behaviorState MASK_APPROACH }).2 ∧
    calls (loop atmega32u4 (actState 8) (completeInput 0)).2 = [Controller.approach] ∧
    entryFlags (loop atmega32u4 (actState 8) (completeInput 0)).2 =
      [setMask (actState 8).behaviorState MASK_APPROACH] ∧
    (∀ e ∈ (loop atmega32u4 (actState 8) (completeInput 0)).2,
      (∀ a r b, e ≠ Event.turnFor a r b) ∧ (∀ r v b, e ≠ Event.moveArch r v b))) :=
  ⟨rfl, rfl, by norm_num [actState], by norm_num [actState],
   C1_approach_band_selects_approach atmega32u4 (actState 8) (completeInput 0)
     rfl rfl (by norm_num [actState]) (by norm_num [actState])⟩

/-- C2: when `loop()` runs in `STATE_ACT`, motion is complete and
`5.75 ≤ meas ≤ 6.25`, only WALLFOLLOW runs: the events of the tick are the
entry of `wallFollowController` followed by exactly
`turnFor(180, 15, true)` and `moveArch(10, 25, true)`, the body of the
`while(true)` loop runs exactly once and the loop ends, and
`MASK_WALLFOLLOW` is clear when the controller returns and when the tick
ends. -/
theorem C2_follow_band_selects_wallfollow (t : Target) (s : RobotState) (i : TickInput)
    (hs : s.state = STATE_ACT) (hc : i.motionComplete = true)
    (h1 : 5.75 ≤ s.meas) (h2 : s.meas ≤ 6.25) :
    (loop t s i).2 =
      [Event.enter Controller.wallFollow (setMask s.behaviorState MASK_WALLFOLLOW),
       Event.turnFor 180 15 true, Event.moveArch 10 25 true] ∧
    motionCommands (loop t s i).2 =
      [Event.turnFor 180 15 true, Event.moveArch 10 25 true] ∧
    calls (loop t s i).2 = [Controller.wallFollow] ∧
    (wallFollowLoop
      { s with behaviorState := setMask s.behaviorState MASK_WALLFOLLOW }).2.2 = 1 ∧
    maskSet (wallFollowController
      { s with behaviorState := setMask s.behaviorState MASK_WALLFOLLOW }).1.behaviorState
      MASK_WALLFOLLOW = false ∧
    maskSet (loop t s i).1.behaviorState MASK_WALLFOLLOW = false := by
  have hl := wallFollowLoop_of_set
    { s with behaviorState := setMask s.behaviorState MASK_WALLFOLLOW }
    (maskSet_setMask _ _ (by decide))
  have hm : maskSet (clearMask (setMask s.behaviorState MASK_WALLFOLLOW) MASK_WALLFOLLOW)
      MASK_WALLFOLLOW = false := maskSet_clearMask _ _ (by decide)
  rw [loop_act_complete t s i hs hc, arbiter_of_follow t s i h1 h2]
  refine ⟨?_, ?_, ?_, ?_, ?_, ?_⟩
  · simp [WALL_FOLLOW_TURNANGLE, WALL_FOLLOW_TURNRATE]
  · simp [motionCommands, Event.isMotion, WALL_FOLLOW_TURNANGLE, WALL_FOLLOW_TURNRATE]
  · simp [calls]
  · rw [hl]
  · simp only [wallFollowController, hl]
    exact hm
  · exact hm

/-- C3: when `loop()` runs in `STATE_ACT`, motion is complete and
`meas > 20.0`, only WANDER runs: `MASK_WANDER` is set at the call, the
events of the tick are those of that one call of `wanderController`, and it
is the only controller entered. -/
theorem C3_far_band_selects_wander (t : Target) (s : RobotState) (i : TickInput)
    (hs : s.state = STATE_ACT) (hc : i.motionComplete = true)
    (h : 20.0 < s.meas) :
    maskSet (setMask s.behaviorState MASK_WANDER) MASK_WANDER = true ∧
    (loop t s i).2 =
      (wanderController t
        { s with behaviorState := setMask s.behaviorState MASK_WANDER } i).2 ∧
    calls (loop t s i).2 = [Controller.wander] ∧
    entryFlags (loop t s i).2 = [setMask s.behaviorState MASK_WANDER] := by
  rw [loop_act_complete t s i hs hc, arbiter_of_far t s i h]
  refine ⟨maskSet_setMask _ _ (by decide), rfl, ?_, ?_⟩
  · exact calls_wanderController t _ _
  · exact entryFlags_wanderController t _ _

/-- Witness for C2 at `meas = 6`. -/
theorem C2_follow_band_selects_wallfollow_witness :
    (actState 6).state = STATE_ACT ∧ (completeInput 0).motionComplete = true ∧
    5.75 ≤ (actState 6).meas ∧ (actState 6).meas ≤ 6.25 ∧
    ((loop atmega32u4 (actState 6) (completeInput 0)).2 =
      [Event.enter Controller.wallFollow
        (setMask (actState 6).behaviorState MASK_WALLFOLLOW),
       Event.turnFor 180 15 true, Event.moveArch 10 25 true] ∧
    motionCommands (loop atmega32u4 (actState 6) (completeInput 0)).2 =
      [Event.turnFor 180 15 true, Event.moveArch 10 25 true] ∧
    calls (loop atmega32u4 (actState 6) (completeInput 0)).2 = [Controller.wallFollow] ∧
    (wallFollowLoop
      { actState 6 with
        behaviorState := setMask (actState 6).behaviorState MASK_WALLFOLLOW }).2.2 = 1 ∧
    maskSet (wallFollowController
      { actState 6 with
        behaviorState :=
          setMask (actState 6).behaviorState MASK_WALLFOLLOW }).1.behaviorState
      MASK_WALLFOLLOW = false ∧
    maskSet (loop atmega32u4 (actState 6) (completeInput 0)).1.behaviorState
      MASK_WALLFOLLOW = false) :=
  ⟨rfl, rfl, by norm_num [actState], by norm_num [actState],
   C2_follow_band_selects_wallfollow atmega32u4 (actState 6) (completeInput 0)
     rfl rfl (by norm_num [actState]) (by norm_num [actState])⟩

/-- Witness for C3 at `meas = 25`. -/
theorem C3_far_band_selects_wander_witness :
    (actState 25).state = STATE_ACT ∧ (completeInput 100).motionComplete = true ∧
    20.0 < (actState 25).meas ∧
    (maskSet (setMask (actState 25).behaviorState MASK_WANDER) MASK_WANDER = true ∧
    (loop atmega32u4 (actState 25) (completeInput 100)).2 =
      (wanderController atmega32u4
        { actState 25 with
          behaviorState := setMask (actState 25).behaviorState MASK_WANDER }
        (completeInput 100)).2 ∧
    calls (loop atmega32u4 (actState 25) (completeInput 100)).2 = [Controller.wander] ∧
    entryFlags (loop atmega32u4 (actState 25) (completeInput 100)).2 =
      [setMask (actState 25).behaviorState MASK_WANDER]) :=
  ⟨rfl, rfl, by norm_num [actState],
   C3_far_band_selects_wander atmega32u4 (actState 25) (completeInput 100)
     rfl rfl (by norm_num [actState])⟩

/-- C4: the three conditions of the arbiter's `if / else if` chain are the
stated inequalities and exactly one of them holds for every measurement;
every measurement below 5.75 is in the APPROACH band; and a tick of
`loop()` in `STATE_ACT` with motion complete enters exactly one controller,
the one whose band holds the measurement. -/
theorem C4_bands_partition :
    (∀ m : ℚ,
      (approachBand m = true ↔ (m ≤ 20.0 ∧ m > 6.25) ∨ (m ≤ 20.0 ∧ m < 5.75)) ∧
      (wallFollowBand m = true ↔ 5.75 ≤ m ∧ m ≤ 6.25) ∧
      (wanderBand m = true ↔ m > 20.0)) ∧
    (∀ m : ℚ,
      (approachBand m = true ∧ wallFollowBand m = false ∧ wanderBand m = false) ∨
      (approachBand m = false ∧ wallFollowBand m = true ∧ wanderBand m = false) ∨
      (approachBand m = false ∧ wallFollowBand m = false ∧ wanderBand m = true)) ∧
    (∀ m : ℚ, m < 5.75 → approachBand m = true) ∧
    (∀ (t : Target) (s : RobotState) (i : TickInput),
      s.state = STATE_ACT → i.motionComplete = true →
        (∃ c, calls (loop t s i).2 = [c]) ∧
        (approachBand s.meas = true →
          calls (loop t s i).2 = [Controller.approach]) ∧
        (wallFollowBand s.meas = true →
          calls (loop t s i).2 = [Controller.wallFollow]) ∧
        (wanderBand s.meas = true →
          calls (loop t s i).2 = [Controller.wander])) := by
  refine ⟨fun m => ⟨approachBand_iff m, wallFollowBand_iff m, wanderBand_iff m⟩,
    bands_exactly_one, ?_, ?_⟩
  · intro m hm
    rw [approachBand_iff]
    refine Or.inr ⟨?_, hm⟩
    norm_num at hm ⊢
    linarith
  · intro t s i hs hc
    have hl : (loop t s i).2 = (arbiter t s i).2 := by
      rw [loop_act_complete t s i hs hc]
    rw [hl, calls_arbiter]
    refine ⟨⟨_, rfl⟩, ?_, ?_, ?_⟩
    · intro h
      simp [h]
    · intro h
      rcases bands_exactly_one s.meas with ⟨_, h2, _⟩ | ⟨h1, _, _⟩ | ⟨_, h2, _⟩
      · rw [h2] at h; cases h
      · simp [h1, h]
      · rw [h2] at h; cases h
    · intro h
      rcases bands_exactly_one s.meas with ⟨_, _, h3⟩ | ⟨_, _, h3⟩ | ⟨h1, h2, _⟩
      · rw [h3] at h; cases h
      · rw [h3] at h; cases h
      · simp [h1, h2]

/-- Witness for C4: a negative measurement, `meas = -3`, selects APPROACH. -/
theorem C4_bands_partition_witness :
    (-3 : ℚ) < 5.75 ∧ approachBand (-3) = true ∧
    (actState (-3)).state = STATE_ACT ∧ (completeInput 0).motionComplete = true ∧
    calls (loop atmega32u4 (actState (-3)) (completeInput 0)).2 = [Controller.approach] :=
  ⟨by norm_num, C4_bands_partition.2.2.1 (-3) (by norm_num), rfl, rfl,
   (C4_bands_partition.2.2.2 atmega32u4 (actState (-3)) (completeInput 0) rfl rfl).2.1
     (C4_bands_partition.2.2.1 (-3) (by norm_num))⟩

/-- C5: a tick of `loop()` in `STATE_BEGIN` leaves `eT`, `eT_deltaT`,
`ddt_eT`, `iEt`, `behaviorState`, `testIteration` and `meas` all zero and
moves to `STATE_SENSE`, whatever the globals held before; it emits no
event. -/
theorem C5_begin_resets_accumulators (t : Target) (s : RobotState) (i : TickInput)
    (hs : s.state = STATE_BEGIN) :
    (loop t s i).1.eT = 0 ∧ (loop t s i).1.eT_deltaT = 0 ∧
    (loop t s i).1.ddt_eT = 0 ∧ (loop t s i).1.iEt = 0 ∧
    (loop t s i).1.behaviorState = 0 ∧ (loop t s i).1.testIteration = 0 ∧
    (loop t s i).1.meas = 0 ∧ (loop t s i).1.state = STATE_SENSE ∧
    (loop t s i).2 = [] := by
  unfold loop
  simp [hs]

/-- Witness for C5 on a state whose globals are all non-zero. -/
theorem C5_begin_resets_accumulators_witness :
    dirtyBegin.state = STATE_BEGIN ∧
    ((loop atmega32u4 dirtyBegin busyInput).1.eT = 0 ∧
    (loop atmega32u4 dirtyBegin busyInput).1.eT_deltaT = 0 ∧
    (loop atmega32u4 dirtyBegin busyInput).1.ddt_eT = 0 ∧
    (loop atmega32u4 dirtyBegin busyInput).1.iEt = 0 ∧
    (loop atmega32u4 dirtyBegin busyInput).1.behaviorState = 0 ∧
    (loop atmega32u4 dirtyBegin busyInput).1.testIteration = 0 ∧
    (loop atmega32u4 dirtyBegin busyInput).1.meas = 0 ∧
    (loop atmega32u4 dirtyBegin busyInput).1.state = STATE_SENSE ∧
    (loop atmega32u4 dirtyBegin busyInput).2 = []) :=
  ⟨rfl, C5_begin_resets_accumulators atmega32u4 dirtyBegin busyInput rfl⟩

/-- C6 (as stated, refuted): with `MASK_APPROACH` set, `ref = 6` and
`meas = 6`, `approachController` emits no `idle` command; its only event is
the entry marker. -/
theorem C6_setpoint_idle_counterexample :
    maskSet atSetpoint.behaviorState MASK_APPROACH = true ∧
    atSetpoint.ref = 6 ∧ atSetpoint.meas = 6 ∧
    (approachController atSetpoint).2 = [Event.enter Controller.approach 1] ∧
    Event.idle ∉ (approachController atSetpoint).2 := by
  have h : fabs (fsub atSetpoint.ref atSetpoint.meas) ≤ 0.5 := by
    show fabs (fsub 6 6) ≤ 0.5
    rw [fsub_self]
    norm_num [fabs]
  rw [approachController_deadband atSetpoint h]
  refine ⟨by decide, rfl, rfl, ?_, ?_⟩
  · simp [atSetpoint, MASK_APPROACH]
  · simp

/-- C6 (amended): for every prior control-error state, when
`approachController` is called with `MASK_APPROACH` set, `ref = 6` and
`meas = 6`, the new error `eT_deltaT` is 0 and the controller issues no
motion command at all: no `driveFor`, and no `idle` either, because the
error does not pass the guard `fabs(eT_deltaT) > 0.5`. -/
theorem C6_setpoint_no_command (s : RobotState)
    (_hm : maskSet s.behaviorState MASK_APPROACH = true)
    (hr : s.ref = 6) (hx : s.meas = 6) :
    (approachController s).1.eT_deltaT = 0 ∧
    motionCommands (approachController s).2 = [] ∧
    Event.idle ∉ (approachController s).2 ∧
    (∀ d v b, Event.driveFor d v b ∉ (approachController s).2) := by
  have h : fabs (fsub s.ref s.meas) ≤ 0.5 := by
    rw [hr, hx, fsub_self]
    norm_num [fabs]
  rw [approachController_deadband s h]
  refine ⟨?_, ?_, ?_, ?_⟩
  · simp [hr, hx, fsub_self]
  · simp [motionCommands, Event.isMotion]
  · simp
  · simp

/-- Witness for the amended C6 on a state with a non-zero error history. -/
theorem C6_setpoint_no_command_witness :
    maskSet atSetpoint.behaviorState MASK_APPROACH = true ∧
    atSetpoint.ref = 6 ∧ atSetpoint.meas = 6 ∧
    ((approachController atSetpoint).1.eT_deltaT = 0 ∧
    motionCommands (approachController atSetpoint).2 = [] ∧
    Event.idle ∉ (approachController atSetpoint).2 ∧
    (∀ d v b, Event.driveFor d v b ∉ (approachController atSetpoint).2)) :=
  ⟨by decide, rfl, rfl, C6_setpoint_no_command atSetpoint (by decide) rfl rfl⟩

/-- C7 (as stated, refuted): with `MASK_APPROACH` set, `ref = 6`, `meas = 5`,
previous actuation 0 and `iEt = 1 + 2^(-23)`, the accumulator on return is
2, not the real sum `iEt + (ref - meas) = 2 + 2^(-23)`, which binary32
cannot represent. -/
theorem C7_anti_windup_counterexample :
    maskSet roundingState.behaviorState MASK_APPROACH = true ∧
    fabs (roundingState.ref - roundingState.meas) > 0.5 ∧
    fabs roundingState.actuation ≤ 10 ∧
    (approachController roundingState).1.iEt = 2 ∧
    roundingState.iEt + (roundingState.ref - roundingState.meas) = 16777217 / 8388608 ∧
    (approachController roundingState).1.iEt ≠
      roundingState.iEt + (roundingState.ref - roundingState.meas) := by
  decide!

/-- C7 (amended): anti-windup in binary32 arithmetic.  When
`approachController` acts (`MASK_APPROACH` set and `fabs(e) > 0.5` for the
`float` difference `e = ref - meas`): if the previous actuation has
magnitude above 10, `iEt` is 0 in the state `controlLaw` reads and on
return, and the whole result of the call does not depend on the value `iEt`
held before; if the magnitude is at most 10, `iEt` is the `float` sum of
`iEt` and `e` in the state `controlLaw` reads and on return.  In both cases
the actuation the controller stores is decided by the value `controlLaw`
returns on that state. -/
theorem C7_anti_windup (s : RobotState)
    (hm : maskSet s.behaviorState MASK_APPROACH = true)
    (he : fabs (fsub s.ref s.meas) > 0.5) :
    (fabs s.actuation > 10 →
      (approachIntegral (approachError s)).iEt = 0 ∧
      (approachController s).1.iEt = 0 ∧
      (∀ x : ℚ, approachController { s with iEt := x } = approachController s) ∧
      pidValue s =
        fadd (fadd (fmul (f32 K_P) (fsub s.ref s.meas)) (fmul (f32 K_I) 0))
             (fmul (f32 K_D) (fsub (fsub s.ref s.meas) s.eT_deltaT))) ∧
    (fabs s.actuation ≤ 10 →
      (approachIntegral (approachError s)).iEt = fadd s.iEt (fsub s.ref s.meas) ∧
      (approachController s).1.iEt = fadd s.iEt (fsub s.ref s.meas) ∧
      pidValue s =
        fadd (fadd (fmul (f32 K_P) (fsub s.ref s.meas))
                   (fmul (f32 K_I) (fadd s.iEt (fsub s.ref s.meas))))
             (fmul (f32 K_D) (fsub (fsub s.ref s.meas) s.eT_deltaT))) ∧
    (approachController s).1.actuation =
      (if fabs (pidValue s) < 0.2 ∨ fabs (fsub s.ref s.meas) < 0.1 then 0
       else pidValue s) := by
  have hact : (approachController s).1.actuation =
      (if fabs (pidValue s) < 0.2 ∨ fabs (fsub s.ref s.meas) < 0.1 then 0
       else pidValue s) := by
    by_cases hc : fabs (pidValue s) < 0.2 ∨ fabs (fsub s.ref s.meas) < 0.1
    · rw [approachController_converge s hm he hc, if_pos hc]
    · rw [approachController_drive s hm he hc, if_neg hc]
  have hiEt : (approachController s).1.iEt =
      (if fabs s.actuation > 10 then 0 else fadd s.iEt (fsub s.ref s.meas)) := by
    by_cases hc : fabs (pidValue s) < 0.2 ∨ fabs (fsub s.ref s.meas) < 0.1
    · rw [approachController_converge s hm he hc]
    · rw [approachController_drive s hm he hc]
  refine ⟨?_, ?_, hact⟩
  · intro ha
    have hp : ∀ x : ℚ, pidValue { s with iEt := x } = pidValue s := by
      intro x
      rw [pidValue_eq, pidValue_eq]
      simp only [if_pos ha]
    refine ⟨?_, ?_, ?_, ?_⟩
    · rw [approachIntegral_iEt, if_pos ha]
    · rw [hiEt, if_pos ha]
    · intro x
      by_cases hc : fabs (pidValue s) < 0.2 ∨ fabs (fsub s.ref s.meas) < 0.1
      · have hcx : fabs (pidValue { s with iEt := x }) < 0.2 ∨
            fabs (fsub s.ref s.meas) < 0.1 := by rw [hp x]; exact hc
        rw [approachController_converge s hm he hc,
          approachController_converge { s with iEt := x } hm he hcx]
        simp only [if_pos ha]
      · have hcx : ¬ (fabs (pidValue { s with iEt := x }) < 0.2 ∨
            fabs (fsub s.ref s.meas) < 0.1) := by rw [hp x]; exact hc
        rw [approachController_drive s hm he hc,
          approachController_drive { s with iEt := x } hm he hcx, hp x]
        simp only [if_pos ha]
    · rw [pidValue_eq, if_pos ha]
  · intro ha
    have hna : ¬ fabs s.actuation > 10 := not_lt.mpr ha
    refine ⟨?_, ?_, ?_⟩
    · rw [approachIntegral_iEt, if_neg hna]
    · rw [hiEt, if_neg hna]
    · rw [pidValue_eq, if_neg hna]

/-- Witness for the amended C7: previous actuation -11 (reset) and 5
(accumulate), with `iEt = 4` and error `6 - 8 = -2`. -/
theorem C7_anti_windup_witness :
    (maskSet (windupState (-11)).behaviorState MASK_APPROACH = true ∧
     fabs (fsub (windupState (-11)).ref (windupState (-11)).meas) > 0.5 ∧
     fabs (windupState (-11)).actuation > 10 ∧
     (approachController (windupState (-11))).1.iEt = 0) ∧
    (maskSet (windupState 5).behaviorState MASK_APPROACH = true ∧
     fabs (fsub (windupState 5).ref (windupState 5).meas) > 0.5 ∧
     fabs (windupState 5).actuation ≤ 10 ∧
     (approachController (windupState 5)).1.iEt =
       fadd (windupState 5).iEt (fsub (windupState 5).ref (windupState 5).meas)) :=
  ⟨⟨by decide, by decide!, by decide!,
    ((C7_anti_windup (windupState (-11)) (by decide) (by decide!)).1 (by decide!)).2.1⟩,
   ⟨by decide, by decide!, by decide!,
    ((C7_anti_windup (windupState 5) (by decide) (by decide!)).2.1 (by decide!)).2.1⟩⟩

/-- C8 (as stated, refuted): with `MASK_WANDER` set and second reading
50.79997253417969, the exact product with 0.393701 is below 20.0, yet
`inches` is exactly 20 in binary32 on both kinds of target and the
controller emits the `driveFor(10, 7)` after the turn. -/
theorem C8_wander_rounding_counterexample :
    maskSet wanderState.behaviorState MASK_WANDER = true ∧
    readingNear20 * 0.393701 < 20.0 ∧
    inchesOf atmega32u4 readingNear20 = 20 ∧
    inchesOf wideTarget readingNear20 = 20 ∧
    motionCommands
      (wanderController atmega32u4 wanderState (completeInput readingNear20)).2 =
      [Event.turnFor 154 15 true, Event.driveFor 10 7 true] ∧
    motionCommands
      (wanderController wideTarget wanderState (completeInput readingNear20)).2 =
      [Event.turnFor 154 15 true, Event.driveFor 10 7 true] := by
  decide!

/-- C8 (amended): with `MASK_WANDER` set, `wanderController` first emits one
blocking `turnFor(rand() % 360, 15)`; if `inches`, the second reading times
0.393701 rounded to `float`, is below 20.0 that is its only motion command,
otherwise one blocking `driveFor(10, 7)` follows; in both cases
`MASK_WANDER` is clear on return, every other bit of `behaviorState` is
unchanged, and the result does not depend on the first reading. -/
theorem C8_wander_controller (t : Target) (s : RobotState) (i : TickInput)
    (hm : maskSet s.behaviorState MASK_WANDER = true)
    (hb : s.behaviorState < 256) :
    (inchesOf t i.reading2 < 20.0 →
      motionCommands (wanderController t s i).2 =
        [Event.turnFor ((i.randValue % 360 : Nat) : ℚ) 15 true]) ∧
    (¬ inchesOf t i.reading2 < 20.0 →
      motionCommands (wanderController t s i).2 =
        [Event.turnFor ((i.randValue % 360 : Nat) : ℚ) 15 true,
         Event.driveFor 10 7 true]) ∧
    maskSet (wanderController t s i).1.behaviorState MASK_WANDER = false ∧
    (∀ k, k ≠ 1 →
      (wanderController t s i).1.behaviorState.testBit k = s.behaviorState.testBit k) ∧
    (∀ r1, wanderController t s { i with reading1 := r1 } = wanderController t s i) := by
  have hc : maskSet (clearMask s.behaviorState MASK_WANDER) MASK_WANDER = false :=
    maskSet_clearMask _ _ (by decide)
  have hbits : ∀ k, k ≠ 1 →
      (clearMask s.behaviorState MASK_WANDER).testBit k = s.behaviorState.testBit k := by
    intro k hk
    apply clearMask_testBit _ _ _ hb (by decide)
    show Nat.testBit 2 k = false
    rcases Nat.lt_or_ge k 2 with h2 | h2
    · interval_cases k
      · rfl
      · exact absurd rfl hk
    · exact Nat.testBit_eq_false_of_lt
        (lt_of_lt_of_le (by decide : 2 < 2 ^ 2) (Nat.pow_le_pow_right (by decide) h2))
  refine ⟨?_, ?_, ?_, ?_, ?_⟩
  · intro h
    simp [wanderController, hm, h, motionCommands, Event.isMotion,
      WANDER_ANGLE, WANDER_TURN_RATE]
  · intro h
    simp [wanderController, hm, h, motionCommands, Event.isMotion,
      WANDER_ANGLE, WANDER_TURN_RATE, WANDER_DIST, WANDER_SPEED]
  · unfold wanderController
    simp only [hm, if_true]
    split_ifs <;> exact hc
  · intro k hk
    unfold wanderController
    simp only [hm, if_true]
    split_ifs <;> exact hbits k hk
  · intro r1
    simp [wanderController]

/-- Witness for the amended C8: flags `0b110`; a second reading of 10 cm
gives 3.93701 in and no drive, one of 50.79997253417969 cm gives exactly 20
in and a drive; the first reading is 500 cm against 10. -/
theorem C8_wander_controller_witness :
    maskSet wanderState.behaviorState MASK_WANDER = true ∧
    wanderState.behaviorState < 256 ∧
    inchesOf atmega32u4 (completeInput 10).reading2 < 20.0 ∧
    ¬ inchesOf atmega32u4 (completeInput readingNear20).reading2 < 20.0 ∧
    motionCommands (wanderController atmega32u4 wanderState (completeInput 10)).2 =
      [Event.turnFor ((1234 % 360 : Nat) : ℚ) 15 true] ∧
    motionCommands
      (wanderController atmega32u4 wanderState (completeInput readingNear20)).2 =
      [Event.turnFor ((1234 % 360 : Nat) : ℚ) 15 true, Event.driveFor 10 7 true] ∧
    maskSet (wanderController atmega32u4 wanderState (completeInput 10)).1.behaviorState
      MASK_WANDER = false ∧
    wanderController atmega32u4 wanderState { completeInput 10 with reading1 := 500 } =
      wanderController atmega32u4 wanderState (completeInput 10) :=
  ⟨by decide, by decide, by decide!, by decide!,
   (C8_wander_controller atmega32u4 wanderState (completeInput 10)
     (by decide) (by decide)).1 (by decide!),
   (C8_wander_controller atmega32u4 wanderState (completeInput readingNear20)
     (by decide) (by decide)).2.1 (by decide!),
   (C8_wander_controller atmega32u4 wanderState (completeInput 10)
     (by decide) (by decide)).2.2.1,
   (C8_wander_controller atmega32u4 wanderState (completeInput 10)
     (by decide) (by decide)).2.2.2.2 500⟩

/-- C9: a tick of `loop()` in `STATE_ACT` for which `checkMotionComplete()`
answers false emits only `delay(5)`: no motion command, no controller entry;
and it leaves `behaviorState`, `meas`, `eT`, `eT_deltaT`, `ddt_eT`, `iEt` and
`actuation` unchanged. -/
theorem C9_act_not_complete_frame (t : Target) (s : RobotState) (i : TickInput)
    (hs : s.state = STATE_ACT) (hc : i.motionComplete = false) :
    (loop t s i).2 = [Event.delay 5] ∧
    motionCommands (loop t s i).2 = [] ∧
    calls (loop t s i).2 = [] ∧
    (loop t s i).1.behaviorState = s.behaviorState ∧
    (loop t s i).1.meas = s.meas ∧
    (loop t s i).1.eT = s.eT ∧
    (loop t s i).1.eT_deltaT = s.eT_deltaT ∧
    (loop t s i).1.ddt_eT = s.ddt_eT ∧
    (loop t s i).1.iEt = s.iEt ∧
    (loop t s i).1.actuation = s.actuation := by
  unfold loop
  simp [hs, hc, STATE_ACT, STATE_BEGIN, STATE_SENSE, STATE_THINK, motionCommands,
    Event.isMotion, calls]

/-- Witness for C9 at `meas = 8`. -/
theorem C9_act_not_complete_frame_witness :
    (actState 8).state = STATE_ACT ∧ busyInput.motionComplete = false ∧
    ((loop atmega32u4 (actState 8) busyInput).2 = [Event.delay 5] ∧
    motionCommands (loop atmega32u4 (actState 8) busyInput).2 = [] ∧
    calls (loop atmega32u4 (actState 8) busyInput).2 = [] ∧
    (loop atmega32u4 (actState 8) busyInput).1.behaviorState = (actState 8).behaviorState ∧
    (loop atmega32u4 (actState 8) busyInput).1.meas = (actState 8).meas ∧
    (loop atmega32u4 (actState 8) busyInput).1.eT = (actState 8).eT ∧
    (loop atmega32u4 (actState 8) busyInput).1.eT_deltaT = (actState 8).eT_deltaT ∧
    (loop atmega32u4 (actState 8) busyInput).1.ddt_eT = (actState 8).ddt_eT ∧
    (loop atmega32u4 (actState 8) busyInput).1.iEt = (actState 8).iEt ∧
    (loop atmega32u4 (actState 8) busyInput).1.actuation = (actState 8).actuation) :=
  ⟨rfl, rfl, C9_act_not_complete_frame atmega32u4 (actState 8) busyInput rfl rfl⟩

/-- C10 (as stated, refuted): in the scenario with measurements 25, 25, 8,
6, 6 and motion always complete, the controllers entered are not
`[WANDER, WANDER, APPROACH, WALLFOLLOW, APPROACH]`: the fifth is WALLFOLLOW,
and the fifth ACT tick commands a turn and an arc, neither a drive nor an
idle. -/
theorem C10_scenario_counterexample :
    calls (run atmega32u4 initialState scenario).2 ≠
      [Controller.wander, Controller.wander, Controller.approach,
       Controller.wallFollow, Controller.approach] ∧
    calls (run atmega32u4 initialState scenario).2 =
      [Controller.wander, Controller.wander, Controller.approach,
       Controller.wallFollow, Controller.wallFollow] ∧
    motionCommands
      (loop atmega32u4 (run atmega32u4 initialState scenarioHead).1
        (completeInput 100)).2 =
      [Event.turnFor 180 15 true, Event.moveArch 10 25 true] := by
  obtain ⟨r25, _, r8, _, r6, _⟩ := inchesOf_readings
  have h := scenario_run atmega32u4 busyInput
    (senseInput reading25) busyInput (completeInput 100)
    (senseInput reading25) busyInput (completeInput 100)
    (senseInput reading8) busyInput (completeInput 100)
    (senseInput reading6) busyInput (completeInput 100)
    (senseInput reading6) busyInput (completeInput 100)
    r25 r25 r8 r6 r6 rfl rfl rfl rfl rfl
  have hs : scenario =
      [busyInput, senseInput reading25, busyInput, completeInput 100,
       senseInput reading25, busyInput, completeInput 100,
       senseInput reading8, busyInput, completeInput 100,
       senseInput reading6, busyInput, completeInput 100,
       senseInput reading6, busyInput, completeInput 100] := rfl
  refine ⟨?_, ?_, ?_⟩
  · rw [hs, h.1]
    decide
  · rw [hs, h.1]
  · exact h.2.2.2

/-- C10 (amended): five Sense-Think-Act cycles from the initial state with
motion always reported complete and `meas` taking the values 25, 25, 8, 6,
6: the controllers entered are
`[WANDER, WANDER, APPROACH, WALLFOLLOW, WALLFOLLOW]`.  Before the fifth ACT
tick the state is `STATE_ACT` with `meas = 6`, which is in the wall-follow
band, and that tick commands `turnFor(180, 15, true)` then
`moveArch(10, 25, true)`. -/
theorem C10_scenario_behaviours (t : Target)
    (b s1 t1 a1 s2 t2 a2 s3 t3 a3 s4 t4 a4 s5 t5 a5 : TickInput)
    (hm1 : inchesOf t s1.reading2 = 25) (hm2 : inchesOf t s2.reading2 = 25)
    (hm3 : inchesOf t s3.reading2 = 8) (hm4 : inchesOf t s4.reading2 = 6)
    (hm5 : inchesOf t s5.reading2 = 6)
    (hc1 : a1.motionComplete = true) (hc2 : a2.motionComplete = true)
    (hc3 : a3.motionComplete = true) (hc4 : a4.motionComplete = true)
    (hc5 : a5.motionComplete = true) :
    calls (run t initialState
      [b, s1, t1, a1, s2, t2, a2, s3, t3, a3, s4, t4, a4, s5, t5, a5]).2 =
      [Controller.wander, Controller.wander, Controller.approach,
       Controller.wallFollow, Controller.wallFollow] ∧
    (run t initialState
      [b, s1, t1, a1, s2, t2, a2, s3, t3, a3, s4, t4, a4, s5, t5]).1.state = STATE_ACT ∧
    (run t initialState
      [b, s1, t1, a1, s2, t2, a2, s3, t3, a3, s4, t4, a4, s5, t5]).1.meas = 6 ∧
    motionCommands (loop t (run t initialState
      [b, s1, t1, a1, s2, t2, a2, s3, t3, a3, s4, t4, a4, s5, t5]).1 a5).2 =
      [Event.turnFor 180 15 true, Event.moveArch 10 25 true] :=
  scenario_run t b s1 t1 a1 s2 t2 a2 s3 t3 a3 s4 t4 a4 s5 t5 a5
    hm1 hm2 hm3 hm4 hm5 hc1 hc2 hc3 hc4 hc5

/-- Witness for the amended C10 on a target with 32-bit `int` and binary64
`double`, every tick reporting motion complete. -/
theorem C10_scenario_behaviours_witness :
    inchesOf wideTarget (senseInput reading25).reading2 = 25 ∧
    inchesOf wideTarget (senseInput reading8).reading2 = 8 ∧
    inchesOf wideTarget (senseInput reading6).reading2 = 6 ∧
    (completeInput 30).motionComplete = true ∧
    calls (run wideTarget initialState
      [completeInput 0,
       senseInput reading25, completeInput 0, completeInput 30,
       senseInput reading25, completeInput 0, completeInput 30,
       senseInput reading8, completeInput 0, completeInput 30,
       senseInput reading6, completeInput 0, completeInput 30,
       senseInput reading6, completeInput 0, completeInput 30]).2 =
      [Controller.wander, Controller.wander, Controller.approach,
       Controller.wallFollow, Controller.wallFollow] :=
  ⟨inchesOf_readings.2.1, inchesOf_readings.2.2.2.1, inchesOf_readings.2.2.2.2.2, rfl,
   (C10_scenario_behaviours wideTarget (completeInput 0)
    (senseInput reading25) (completeInput 0) (completeInput 30)
    (senseInput reading25) (completeInput 0) (completeInput 30)
    (senseInput reading8) (completeInput 0) (completeInput 30)
    (senseInput reading6) (completeInput 0) (completeInput 30)
    (senseInput reading6) (completeInput 0) (completeInput 30)
    inchesOf_readings.2.1 inchesOf_readings.2.1 inchesOf_readings.2.2.2.1
    inchesOf_readings.2.2.2.2.2 inchesOf_readings.2.2.2.2.2 rfl rfl rfl rfl rfl).1⟩

/-- C13 (as stated, refuted): on a state where `approachController` acts
and the control law gives about 0.11, below 0.2, the convergence branch runs
(one `idle`), yet `ddt_eT` is -2 and `iEt` is 1 on return, not 0. -/
theorem C13_convergence_reset_counterexample :
    maskSet convergeState.behaviorState MASK_APPROACH = true ∧
    fabs (fsub convergeState.ref convergeState.meas) > 0.5 ∧
    pidValue convergeState = 230687 / 2097152 ∧
    fabs (pidValue convergeState) < 0.2 ∧
    (approachController convergeState).2 =
      [Event.enter Controller.approach 1, Event.idle] ∧
    (approachController convergeState).1.ddt_eT = -2 ∧
    (approachController convergeState).1.iEt = 1 := by
  decide!

/-- C13 (amended): whenever `approachController` judges convergence (it
acts, and `fabs(actuation) < 0.2` or `fabs(eT_deltaT) < 0.1` for the
`float` values the control law and the error shift produced), on return
`actuation`, `eT_deltaT` and `eT` are 0, while `ddt_eT` keeps the derivative
computed in this call and `iEt` keeps the accumulator left by the
anti-windup step; exactly one `idle` and no `driveFor` is emitted. -/
theorem C13_convergence_resets (s : RobotState)
    (hm : maskSet s.behaviorState MASK_APPROACH = true)
    (he : fabs (fsub s.ref s.meas) > 0.5)
    (hc : fabs (pidValue s) < 0.2 ∨ fabs (fsub s.ref s.meas) < 0.1) :
    (approachController s).1.actuation = 0 ∧
    (approachController s).1.eT_deltaT = 0 ∧
    (approachController s).1.eT = 0 ∧
    (approachController s).1.ddt_eT = fsub (fsub s.ref s.meas) s.eT_deltaT ∧
    (approachController s).1.iEt =
      (if fabs s.actuation > 10 then 0 else fadd s.iEt (fsub s.ref s.meas)) ∧
    motionCommands (approachController s).2 = [Event.idle] := by
  rw [approachController_converge s hm he hc]
  simp [motionCommands, Event.isMotion]

/-- Witness for the amended C13 on `convergeState`. -/
theorem C13_convergence_resets_witness :
    maskSet convergeState.behaviorState MASK_APPROACH = true ∧
    fabs (fsub convergeState.ref convergeState.meas) > 0.5 ∧
    (fabs (pidValue convergeState) < 0.2 ∨
      fabs (fsub convergeState.ref convergeState.meas) < 0.1) ∧
    ((approachController convergeState).1.actuation = 0 ∧
    (approachController convergeState).1.eT_deltaT = 0 ∧
    (approachController convergeState).1.eT = 0 ∧
    (approachController convergeState).1.ddt_eT =
      fsub (fsub convergeState.ref convergeState.meas) convergeState.eT_deltaT ∧
    (approachController convergeState).1.iEt =
      (if fabs convergeState.actuation > 10 then 0
       else fadd convergeState.iEt (fsub convergeState.ref convergeState.meas)) ∧
    motionCommands (approachController convergeState).2 = [Event.idle]) :=
  ⟨by decide, by decide!, Or.inl (by decide!),
   C13_convergence_resets convergeState (by decide) (by decide!) (Or.inl (by decide!))⟩

/-- C14 (as stated, refuted): a `STATE_BEGIN` tick on a state whose
`actuation` is -11 leaves `actuation` at -11, not 0. -/
theorem C14_begin_actuation_counterexample :
    dirtyBegin.state = STATE_BEGIN ∧
    (loop atmega32u4 dirtyBegin busyInput).1.actuation = -11 ∧
    (loop atmega32u4 dirtyBegin busyInput).1.actuation ≠ 0 := by
  rw [loop_begin atmega32u4 dirtyBegin busyInput rfl]
  refine ⟨rfl, rfl, ?_⟩
  norm_num [dirtyBegin]

/-- C14 (amended): a tick of `loop()` in `STATE_BEGIN` sets `eT`,
`eT_deltaT`, `ddt_eT` and `iEt` to 0 but does not write `actuation`, which
keeps the value it held before the tick; on the initial globals that value
is 0. -/
theorem C14_begin_keeps_actuation (t : Target) (s : RobotState) (i : TickInput)
    (hs : s.state = STATE_BEGIN) :
    (loop t s i).1.eT = 0 ∧ (loop t s i).1.eT_deltaT = 0 ∧
    (loop t s i).1.ddt_eT = 0 ∧ (loop t s i).1.iEt = 0 ∧
    (loop t s i).1.actuation = s.actuation ∧
    (loop t initialState i).1.actuation = 0 := by
  rw [loop_begin t s i hs, loop_begin t initialState i rfl]
  exact ⟨rfl, rfl, rfl, rfl, rfl, rfl⟩

/-- Witness for the amended C14 on a state whose globals are all non-zero. -/
theorem C14_begin_keeps_actuation_witness :
    dirtyBegin.state = STATE_BEGIN ∧
    ((loop atmega32u4 dirtyBegin busyInput).1.eT = 0 ∧
    (loop atmega32u4 dirtyBegin busyInput).1.eT_deltaT = 0 ∧
    (loop atmega32u4 dirtyBegin busyInput).1.ddt_eT = 0 ∧
    (loop atmega32u4 dirtyBegin busyInput).1.iEt = 0 ∧
    (loop atmega32u4 dirtyBegin busyInput).1.actuation = dirtyBegin.actuation ∧
    (loop atmega32u4 initialState busyInput).1.actuation = 0) :=
  ⟨rfl, C14_begin_keeps_actuation atmega32u4 dirtyBegin busyInput rfl⟩

/-- C15 (as stated, refuted): a `STATE_ACT` tick with motion not complete
ends in `STATE_SENSE`, not `STATE_ACT`, and the next tick requests two range
readings. -/
theorem C15_act_busy_counterexample :
    (actState 8).state = STATE_ACT ∧ busyInput.motionComplete = false ∧
    (loop atmega32u4 (actState 8) busyInput).1.state = STATE_SENSE ∧
    (loop atmega32u4 (actState 8) busyInput).1.state ≠ STATE_ACT ∧
    (loop atmega32u4 (loop atmega32u4 (actState 8) busyInput).1 busyInput).2 =
      [Event.getDistance, Event.delay 100, Event.getDistance] := by
  have h := loop_act_busy atmega32u4 (actState 8) busyInput rfl rfl
  have hw : wrapInt atmega32u4.intBits ((actState 8).testIteration + 1) = 1 := by
    norm_num [wrapInt, actState, initialState, atmega32u4]
  have hlt : (1 : Int) < NUM_ITERATIONS := by decide
  rw [hw] at h
  simp only [hlt, if_true] at h
  rw [h]
  refine ⟨rfl, rfl, rfl, by decide, ?_⟩
  rw [loop_sense atmega32u4 _ busyInput rfl]

/-- C15 (amended): a `STATE_ACT` tick for which `checkMotionComplete()`
answers false still runs the iteration bookkeeping: `testIteration` is
incremented and the loop state becomes `STATE_SENSE` (or `STATE_END` at the
cap), never `STATE_ACT`.  When it becomes `STATE_SENSE` the next two ticks
request two range readings and recompute `meas` before the arbiter next
runs. -/
theorem C15_act_busy_moves_on (t : Target) (s : RobotState) (i : TickInput)
    (hs : s.state = STATE_ACT) (hc : i.motionComplete = false) :
    (loop t s i).1.testIteration = wrapInt t.intBits (s.testIteration + 1) ∧
    (loop t s i).1.state =
      (if wrapInt t.intBits (s.testIteration + 1) < NUM_ITERATIONS
       then STATE_SENSE else STATE_END) ∧
    (loop t s i).1.state ≠ STATE_ACT ∧
    ((loop t s i).1.state = STATE_SENSE → ∀ j k : TickInput,
      (run t (loop t s i).1 [j, k]).2 =
        [Event.getDistance, Event.delay 100, Event.getDistance] ∧
      (run t (loop t s i).1 [j, k]).1.meas = inchesOf t j.reading2 ∧
      (run t (loop t s i).1 [j, k]).1.state = STATE_ACT) := by
  rw [loop_act_busy t s i hs hc]
  refine ⟨rfl, rfl, ?_, ?_⟩
  · show (if wrapInt t.intBits (s.testIteration + 1) < NUM_ITERATIONS
       then STATE_SENSE else STATE_END) ≠ STATE_ACT
    split_ifs <;> decide
  · intro h j k
    have h1 := loop_sense t _ j h
    simp only [run, h1]
    rw [loop_think t _ k rfl]
    exact ⟨rfl, rfl, rfl⟩

/-- Witness for the amended C15 at `meas = 8`. -/
theorem C15_act_busy_moves_on_witness :
    (actState 8).state = STATE_ACT ∧ busyInput.motionComplete = false ∧
    (loop atmega32u4 (actState 8) busyInput).1.testIteration =
      wrapInt atmega32u4.intBits ((actState 8).testIteration + 1) ∧
    (loop atmega32u4 (actState 8) busyInput).1.state ≠ STATE_ACT :=
  ⟨rfl, rfl, (C15_act_busy_moves_on atmega32u4 (actState 8) busyInput rfl rfl).1,
   (C15_act_busy_moves_on atmega32u4 (actState 8) busyInput rfl rfl).2.2.1⟩

/-- C16 (as stated, refuted): with the error state reset and `meas = 8` the
controller acts and does not converge, and the speed it passes to `driveFor`
is the `float` -3675259/262144, not the value -14.02 of
`4.7*e + 0.01*I + 2.3*(e - e_prev)`; and on the second of two calls, with
`meas = 12` then `meas = 8`, that expression is exactly -0.2, not below 0.2
in magnitude, yet the controller judges convergence and emits `idle`, not
`driveFor`. -/
theorem C16_drive_step_counterexample :
    (maskSet (freshApproach 8).behaviorState MASK_APPROACH = true ∧
     fabs ((freshApproach 8).ref - (freshApproach 8).meas) > 0.5 ∧
     pidReal (freshApproach 8) = -14.02 ∧
     motionCommands (approachController (freshApproach 8)).2 =
       [Event.driveFor 1 (-3675259 / 262144) false] ∧
     (-3675259 / 262144 : ℚ) ≠ pidReal (freshApproach 8)) ∧
    (maskSet secondCallState.behaviorState MASK_APPROACH = true ∧
     fabs (secondCallState.ref - secondCallState.meas) > 0.5 ∧
     pidReal secondCallState = -0.2 ∧
     ¬ fabs (pidReal secondCallState) < 0.2 ∧
     ¬ fabs (secondCallState.ref - secondCallState.meas) < 0.1 ∧
     motionCommands (approachController secondCallState).2 = [Event.idle]) := by
  decide!

/-- C16 (amended): when `approachController` acts (`MASK_APPROACH` set,
`fabs(eT_deltaT) > 0.5` for the `float` error `e = ref - meas`) and does not
judge convergence, its one motion command is a non-blocking `driveFor` whose
speed is the `float` value `a` that `controlLaw` returns on the state after
the anti-windup step, each product and each sum of
`K_P*e + K_I*I + K_D*(e - e_prev)` rounded to `float`, and whose distance is
+1 when `a < 0` and -1 otherwise; on return `actuation = a`, `eT = e_prev`,
`eT_deltaT = e`, `ddt_eT` is the `float` difference `e - e_prev` and `iEt`
is the accumulator `I`. -/
theorem C16_drive_step (s : RobotState)
    (hm : maskSet s.behaviorState MASK_APPROACH = true)
    (he : fabs (fsub s.ref s.meas) > 0.5)
    (hn : ¬ (fabs (pidValue s) < 0.2 ∨ fabs (fsub s.ref s.meas) < 0.1)) :
    motionCommands (approachController s).2 =
      [Event.driveFor (if pidValue s < 0 then 1 else -1) (pidValue s) false] ∧
    (approachController s).1.actuation = pidValue s ∧
    (approachController s).1.eT = s.eT_deltaT ∧
    (approachController s).1.eT_deltaT = fsub s.ref s.meas ∧
    (approachController s).1.ddt_eT = fsub (fsub s.ref s.meas) s.eT_deltaT ∧
    (approachController s).1.iEt =
      (if fabs s.actuation > 10 then 0 else fadd s.iEt (fsub s.ref s.meas)) ∧
    pidValue s =
      controlLaw (approachIntegral (approachError s)) (f32 K_P) (f32 K_I) (f32 K_D) ∧
    pidValue s =
      fadd (fadd (fmul (f32 K_P) (fsub s.ref s.meas))
                 (fmul (f32 K_I)
                   (if fabs s.actuation > 10 then 0
                    else fadd s.iEt (fsub s.ref s.meas))))
           (fmul (f32 K_D) (fsub (fsub s.ref s.meas) s.eT_deltaT)) := by
  rw [approachController_drive s hm he hn]
  refine ⟨?_, rfl, rfl, rfl, rfl, rfl, rfl, pidValue_eq s⟩
  simp [motionCommands, Event.isMotion]

/-- Witness for the amended C16 at `meas = 8` with a reset error state:
`e = -2`, `a = -3675259/262144`, a forward step. -/
theorem C16_drive_step_witness :
    maskSet (freshApproach 8).behaviorState MASK_APPROACH = true ∧
    fabs (fsub (freshApproach 8).ref (freshApproach 8).meas) > 0.5 ∧
    ¬ (fabs (pidValue (freshApproach 8)) < 0.2 ∨
        fabs (fsub (freshApproach 8).ref (freshApproach 8).meas) < 0.1) ∧
    pidValue (freshApproach 8) = -3675259 / 262144 ∧
    motionCommands (approachController (freshApproach 8)).2 =
      [Event.driveFor (if pidValue (freshApproach 8) < 0 then 1 else -1)
        (pidValue (freshApproach 8)) false] ∧
    (approachController (freshApproach 8)).1.actuation = pidValue (freshApproach 8) :=
  ⟨by decide, by decide!, by decide!, by decide!,
   (C16_drive_step (freshApproach 8) (by decide) (by decide!) (by decide!)).1,
   (C16_drive_step (freshApproach 8) (by decide) (by decide!) (by decide!)).2.1⟩

/-- C17 (what the code does): for every call of `approachController` with
`MASK_APPROACH` set and the control-error state reset (`eT_deltaT = 0`,
`iEt = 0`, `actuation = 0`).  Too close (`meas < ref - 0.5`): the actuation
on return is not negative and no `driveFor` with a distance other than -1
is emitted; when the `float` error passes the guard `fabs(eT_deltaT) > 0.5`
the actuation is at least 2 and the one motion command is the backward step
`driveFor(-1, actuation, false)`.  Too far (`meas > ref + 0.5`): the
actuation is not positive and no `driveFor` with a distance other than +1
is emitted; when the error passes the guard the actuation is at most -2 and
the one motion command is the forward step `driveFor(1, actuation, false)`. -/
theorem C17_sign_convention (s : RobotState)
    (hm : maskSet s.behaviorState MASK_APPROACH = true)
    (h1 : s.eT_deltaT = 0) (h2 : s.iEt = 0) (h3 : s.actuation = 0) :
    (s.meas < s.ref - 0.5 →
      0 ≤ (approachController s).1.actuation ∧
      (∀ d v b, Event.driveFor d v b ∈ (approachController s).2 → d = -1) ∧
      (fabs (fsub s.ref s.meas) > 0.5 →
        2 ≤ (approachController s).1.actuation ∧
        motionCommands (approachController s).2 =
          [Event.driveFor (-1) (approachController s).1.actuation false])) ∧
    (s.meas > s.ref + 0.5 →
      (approachController s).1.actuation ≤ 0 ∧
      (∀ d v b, Event.driveFor d v b ∈ (approachController s).2 → d = 1) ∧
      (fabs (fsub s.ref s.meas) > 0.5 →
        (approachController s).1.actuation ≤ -2 ∧
        motionCommands (approachController s).2 =
          [Event.driveFor 1 (approachController s).1.actuation false])) :=
  ⟨approachController_fresh_close s hm h1 h2 h3,
   approachController_fresh_far s hm h1 h2 h3⟩

/-- Witness for C17: too close at `meas = 3`, where the actuation is
689111/32768, about 21.03, and the command a backward step; too far at
`meas = 8`, where the actuation is -3675259/262144, about -14.02, and the
command a forward step. -/
theorem C17_sign_convention_witness :
    (maskSet (freshApproach 3).behaviorState MASK_APPROACH = true ∧
     (freshApproach 3).eT_deltaT = 0 ∧ (freshApproach 3).iEt = 0 ∧
     (freshApproach 3).actuation = 0 ∧
     (freshApproach 3).meas < (freshApproach 3).ref - 0.5 ∧
     fabs (fsub (freshApproach 3).ref (freshApproach 3).meas) > 0.5 ∧
     (approachController (freshApproach 3)).1.actuation = 689111 / 32768 ∧
     (approachController (freshApproach 3)).2 =
       [Event.enter Controller.approach 1, Event.driveFor (-1) (689111 / 32768) false] ∧
     (2 ≤ (approachController (freshApproach 3)).1.actuation ∧
      motionCommands (approachController (freshApproach 3)).2 =
        [Event.driveFor (-1) (approachController (freshApproach 3)).1.actuation false])) ∧
    (maskSet (freshApproach 8).behaviorState MASK_APPROACH = true ∧
     (freshApproach 8).eT_deltaT = 0 ∧ (freshApproach 8).iEt = 0 ∧
     (freshApproach 8).actuation = 0 ∧
     (freshApproach 8).meas > (freshApproach 8).ref + 0.5 ∧
     fabs (fsub (freshApproach 8).ref (freshApproach 8).meas) > 0.5 ∧
     (approachController (freshApproach 8)).1.actuation = -3675259 / 262144 ∧
     (approachController (freshApproach 8)).2 =
       [Event.enter Controller.approach 1, Event.driveFor 1 (-3675259 / 262144) false] ∧
     ((approachController (freshApproach 8)).1.actuation ≤ -2 ∧
      motionCommands (approachController (freshApproach 8)).2 =
        [Event.driveFor 1 (approachController (freshApproach 8)).1.actuation false])) :=
  ⟨⟨by decide, rfl, rfl, rfl, by decide!, by decide!, by decide!, by decide!,
    ((C17_sign_convention (freshApproach 3) (by decide) rfl rfl rfl).1
      (by decide!)).2.2 (by decide!)⟩,
   ⟨by decide, rfl, rfl, rfl, by decide!, by decide!, by decide!, by decide!,
    ((C17_sign_convention (freshApproach 8) (by decide) rfl rfl rfl).2
      (by decide!)).2.2 (by decide!)⟩⟩

/-- C18 (as stated, refuted): on the second of two calls of
`approachController`, with `meas = 12` then `meas = 8`, the flag is set,
`fabs(ref - meas) = 2 > 0.5` and `4.7*e + 0.01*I + 2.3*(e - e_prev)` is
exactly -0.2, whose magnitude is not below 0.2, yet the convergence branch
is taken and `idle` is emitted: the `float` control law gives
-209715/1048576. -/
theorem C18_second_disjunct_counterexample :
    maskSet secondCallState.behaviorState MASK_APPROACH = true ∧
    fabs (secondCallState.ref - secondCallState.meas) > 0.5 ∧
    pidReal secondCallState = -0.2 ∧
    ¬ fabs (pidReal secondCallState) < 0.2 ∧
    pidValue secondCallState = -209715 / 1048576 ∧
    Event.idle ∈ (approachController secondCallState).2 := by
  decide!

/-- C18 (amended): the second disjunct of the convergence test is dead.  The
convergence branch, the only place that emits `idle`, is taken exactly when
`MASK_APPROACH` is set, `fabs(eT_deltaT) > 0.5` for the `float` error
`ref - meas`, and the `float` value returned by `controlLaw` has magnitude
below 0.2; and the controller without the disjunct `fabs(eT_deltaT) < 0.1`
returns the same state and the same events on every input. -/
theorem C18_second_disjunct_dead :
    (∀ s : RobotState,
      Event.idle ∈ (approachController s).2 ↔
        (maskSet s.behaviorState MASK_APPROACH = true ∧
         fabs (fsub s.ref s.meas) > 0.5 ∧
         fabs (fadd (fadd (fmul (f32 K_P) (fsub s.ref s.meas))
                 (fmul (f32 K_I)
                   (if fabs s.actuation > 10 then 0
                    else fadd s.iEt (fsub s.ref s.meas))))
           (fmul (f32 K_D) (fsub (fsub s.ref s.meas) s.eT_deltaT))) < 0.2)) ∧
    (∀ s : RobotState, approachControllerFirstDisjunct s = approachController s) := by
  refine ⟨?_, approachControllerFirstDisjunct_eq⟩
  intro s
  rw [idle_mem_approachController, pidValue_eq]

/-- C19: the do-nothing zone around the follow band.  With `ref = 6`, for
`5.5 ≤ meas < 5.75` or `6.25 < meas ≤ 6.5`, a `STATE_ACT` tick with motion
complete selects APPROACH (the only event is the entry of
`approachController`) but emits no motion command, and leaves `iEt`,
`actuation`, `meas` and `ref` unchanged; only `eT`, `eT_deltaT` and
`ddt_eT` of the control-error state are updated.  The new `eT_deltaT` is the
`float` difference `6 - meas`, which is `6 - meas` itself when `meas` is a
`float`. -/
theorem C19_dead_zone (t : Target) (s : RobotState) (i : TickInput)
    (hs : s.state = STATE_ACT) (hc : i.motionComplete = true) (hr : s.ref = 6)
    (hm : (5.5 ≤ s.meas ∧ s.meas < 5.75) ∨ (6.25 < s.meas ∧ s.meas ≤ 6.5)) :
    calls (loop t s i).2 = [Controller.approach] ∧
    (loop t s i).2 =
      [Event.enter Controller.approach (setMask s.behaviorState MASK_APPROACH)] ∧
    motionCommands (loop t s i).2 = [] ∧
    (loop t s i).1.iEt = s.iEt ∧
    (loop t s i).1.actuation = s.actuation ∧
    (loop t s i).1.meas = s.meas ∧
    (loop t s i).1.ref = s.ref ∧
    (loop t s i).1.eT = s.eT_deltaT ∧
    (loop t s i).1.eT_deltaT = fsub 6 s.meas ∧
    (loop t s i).1.ddt_eT = fsub (fsub 6 s.meas) s.eT_deltaT ∧
    (f32 s.meas = s.meas → (loop t s i).1.eT_deltaT = 6 - s.meas) := by
  have hb : approachBand s.meas = true := by
    rw [approachBand_iff]
    rcases hm with ⟨h1, h2⟩ | ⟨h1, h2⟩
    · refine Or.inr ⟨?_, h2⟩
      norm_num at h2 ⊢
      linarith
    · refine Or.inl ⟨?_, h1⟩
      norm_num at h2 ⊢
      linarith
  have habs : |6 - s.meas| ≤ 1 / 2 := by
    rw [abs_le]
    rcases hm with ⟨h1, h2⟩ | ⟨h1, h2⟩ <;> norm_num at h1 h2 ⊢ <;>
      constructor <;> linarith
  have hd : fabs (fsub s.ref s.meas) ≤ 0.5 := by
    rw [hr]
    exact abs_fsub_le_half 6 s.meas habs
  have hx : f32 s.meas = s.meas → fsub 6 s.meas = 6 - s.meas :=
    fun hf => fsub_six_exact s.meas hf habs
  have ha := approachController_deadband
    { s with behaviorState := setMask s.behaviorState MASK_APPROACH } hd
  rw [loop_act_complete t s i hs hc, arbiter_of_approach t s i hb, ha]
  simp [calls, motionCommands, Event.isMotion, hr]
  exact hx

/-- Witness for C19 at the `float` value `meas = 5.625`. -/
theorem C19_dead_zone_witness :
    (actState 5.625).state = STATE_ACT ∧ (completeInput 0).motionComplete = true ∧
    (actState 5.625).ref = 6 ∧
    ((5.5 ≤ (actState 5.625).meas ∧ (actState 5.625).meas < 5.75) ∨
      (6.25 < (actState 5.625).meas ∧ (actState 5.625).meas ≤ 6.5)) ∧
    f32 (actState 5.625).meas = (actState 5.625).meas ∧
    calls (loop atmega32u4 (actState 5.625) (completeInput 0)).2 = [Controller.approach] ∧
    motionCommands (loop atmega32u4 (actState 5.625) (completeInput 0)).2 = [] ∧
    (loop atmega32u4 (actState 5.625) (completeInput 0)).1.iEt = (actState 5.625).iEt ∧
    (loop atmega32u4 (actState 5.625) (completeInput 0)).1.actuation =
      (actState 5.625).actuation ∧
    (loop atmega32u4 (actState 5.625) (completeInput 0)).1.eT_deltaT =
      6 - (actState 5.625).meas :=
  ⟨rfl, rfl, rfl, Or.inl (by decide!), by decide!,
   (C19_dead_zone atmega32u4 (actState 5.625) (completeInput 0) rfl rfl rfl
     (Or.inl (by decide!))).1,
   (C19_dead_zone atmega32u4 (actState 5.625) (completeInput 0) rfl rfl rfl
     (Or.inl (by decide!))).2.2.1,
   (C19_dead_zone atmega32u4 (actState 5.625) (completeInput 0) rfl rfl rfl
     (Or.inl (by decide!))).2.2.2.1,
   (C19_dead_zone atmega32u4 (actState 5.625) (completeInput 0) rfl rfl rfl
     (Or.inl (by decide!))).2.2.2.2.1,
   (C19_dead_zone atmega32u4 (actState 5.625) (completeInput 0) rfl rfl rfl
     (Or.inl (by decide!))).2.2.2.2.2.2.2.2.2.2 (by decide!)⟩

/-- C12 (as stated, refuted): three ticks from the initial globals reach
`STATE_ACT` with `meas = 8` and `behaviorState = 0`; the arbiter selects
APPROACH, and when `approachController` returns `MASK_APPROACH` is still
set: `behaviorState` is 1, not 0.  It is 0 only once the arbiter has run its
next statement. -/
theorem C12_flag_after_return_counterexample :
    (run atmega32u4 initialState approachTicks).1.state = STATE_ACT ∧
    (run atmega32u4 initialState approachTicks).1.meas = 8 ∧
    (run atmega32u4 initialState approachTicks).1.behaviorState = 0 ∧
    calls (loop atmega32u4 (run atmega32u4 initialState approachTicks).1
      (completeInput 0)).2 = [Controller.approach] ∧
    (approachController
      { (run atmega32u4 initialState approachTicks).1 with
        behaviorState :=
          setMask (run atmega32u4 initialState approachTicks).1.behaviorState
            MASK_APPROACH }).1.behaviorState = 1 ∧
    maskSet (approachController
      { (run atmega32u4 initialState approachTicks).1 with
        behaviorState :=
          setMask (run atmega32u4 initialState approachTicks).1.behaviorState
            MASK_APPROACH }).1.behaviorState MASK_APPROACH = true ∧
    (arbiter atmega32u4 (run atmega32u4 initialState approachTicks).1
      (completeInput 0)).1.behaviorState = 0 := by
  decide!

/-- C12 (amended): the behaviour-flag invariant.  In every state reached
from the initial globals by calls of `loop()`, `behaviorState` is 0, and it
is 0 again after the next call.  During that call at most one controller is
entered, only from `STATE_ACT`, and at its entry `behaviorState` is exactly
that controller's mask.  `wallFollowController` and `wanderController` clear
their bit before they return (0 on their return); `approachController` does
not: `behaviorState` is still `MASK_APPROACH` on its return and is cleared
by the arbiter's statement right after the call, so it is 0 when the arbiter
is done. -/
theorem C12_behaviour_flag_invariant (t : Target) (l : List TickInput) (i : TickInput) :
    (run t initialState l).1.behaviorState = 0 ∧
    (loop t (run t initialState l).1 i).1.behaviorState = 0 ∧
    ((calls (loop t (run t initialState l).1 i).2 = [] ∧
        entryFlags (loop t (run t initialState l).1 i).2 = []) ∨
     (calls (loop t (run t initialState l).1 i).2 = [Controller.approach] ∧
        entryFlags (loop t (run t initialState l).1 i).2 = [MASK_APPROACH]) ∨
     (calls (loop t (run t initialState l).1 i).2 = [Controller.wallFollow] ∧
        entryFlags (loop t (run t initialState l).1 i).2 = [MASK_WALLFOLLOW]) ∨
     (calls (loop t (run t initialState l).1 i).2 = [Controller.wander] ∧
        entryFlags (loop t (run t initialState l).1 i).2 = [MASK_WANDER])) ∧
    ((run t initialState l).1.state = STATE_ACT ∨
      calls (loop t (run t initialState l).1 i).2 = []) ∧
    (wallFollowController
      { (run t initialState l).1 with
        behaviorState :=
          setMask (run t initialState l).1.behaviorState MASK_WALLFOLLOW }).1.behaviorState
      = 0 ∧
    (wanderController t
      { (run t initialState l).1 with
        behaviorState :=
          setMask (run t initialState l).1.behaviorState MASK_WANDER } i).1.behaviorState
      = 0 ∧
    (approachController
      { (run t initialState l).1 with
        behaviorState :=
          setMask (run t initialState l).1.behaviorState MASK_APPROACH }).1.behaviorState
      = MASK_APPROACH ∧
    (arbiter t (run t initialState l).1 i).1.behaviorState = 0 := by
  have h0 := run_behaviorState t l initialState rfl
  obtain ⟨h1, h2, h3⟩ := loop_enter t (run t initialState l).1 i h0
  refine ⟨h0, h1, h2, ?_, ?_, ?_, ?_, (arbiter_enter t _ i h0).1⟩
  · by_cases ha : (run t initialState l).1.state = STATE_ACT
    · exact Or.inl ha
    · exact Or.inr (h3 ha)
  · rw [wallFollowController_behaviorState _ (maskSet_setMask _ _ (by decide))]
    show clearMask (setMask (run t initialState l).1.behaviorState MASK_WALLFOLLOW)
      MASK_WALLFOLLOW = 0
    rw [h0]
    decide
  · rw [wanderController_behaviorState t _ _ (maskSet_setMask _ _ (by decide))]
    show clearMask (setMask (run t initialState l).1.behaviorState MASK_WANDER)
      MASK_WANDER = 0
    rw [h0]
    decide
  · rw [approachController_behaviorState]
    show setMask (run t initialState l).1.behaviorState MASK_APPROACH = MASK_APPROACH
    rw [h0]
    decide

/-- Instance of the amended C12 on an ACT tick that enters
`approachController`: the tick after `approachTicks`, with motion
complete. -/
theorem C12_behaviour_flag_invariant_witness :
    (run atmega32u4 initialState approachTicks).1.state = STATE_ACT ∧
    calls (loop atmega32u4 (run atmega32u4 initialState approachTicks).1
      (completeInput 0)).2 = [Controller.approach] ∧
    (run atmega32u4 initialState approachTicks).1.behaviorState = 0 ∧
    (loop atmega32u4 (run atmega32u4 initialState approachTicks).1
      (completeInput 0)).1.behaviorState = 0 ∧
    (approachController
      { (run atmega32u4 initialState approachTicks).1 with
        behaviorState :=
          setMask (run atmega32u4 initialState approachTicks).1.behaviorState
            MASK_APPROACH }).1.behaviorState = MASK_APPROACH :=
  ⟨by decide!, by decide!,
   (C12_behaviour_flag_invariant atmega32u4 approachTicks (completeInput 0)).1,
   (C12_behaviour_flag_invariant atmega32u4 approachTicks (completeInput 0)).2.1,
   (C12_behaviour_flag_invariant atmega32u4 approachTicks
     (completeInput 0)).2.2.2.2.2.2.1⟩

/-- C11 (violated by the code on its 16-bit target): evaluation of the
termination claim.  With a 16-bit `int` no run from `STATE_BEGIN` ever
reaches `STATE_END`; after the 150001 calls that contain the 50000th ACT
tick the loop state is `STATE_SENSE`.  With a 32-bit `int` the same code
follows the claimed schedule: the state after `n` calls is
`scheduleState n`, which is `STATE_END` exactly from call 150001 on (call
150001 is the 50000th ACT tick, the state before it being `STATE_ACT`), and
`testIteration` counts the ACT ticks.  In `STATE_END` a call emits one
`idle` and changes nothing. -/
theorem C11_termination_on_int_width (l : List TickInput) (t : Target)
    (s : RobotState) (i : TickInput) :
    (run atmega32u4 { s with state := STATE_BEGIN } l).1.state ≠ STATE_END ∧
    (run atmega32u4 initialState (List.replicate 150001 (completeInput 100))).1.state
      = STATE_SENSE ∧
    (run wideTarget { s with state := STATE_BEGIN } l).1.state = scheduleState l.length ∧
    (run wideTarget initialState l).1.testIteration = scheduleIteration l.length ∧
    (∀ n, scheduleState n = STATE_END ↔ 150001 ≤ n) ∧
    scheduleState 150000 = STATE_ACT ∧
    scheduleIteration 150000 = 49999 ∧ scheduleIteration 150001 = 50000 ∧
    loop t { s with state := STATE_END } i =
      ({ s with state := STATE_END }, [Event.idle]) := by
  have h16 := run_cycleState_16 atmega32u4 rfl l 0 { s with state := STATE_BEGIN } rfl
  have hrep := run_cycleState_16 atmega32u4 rfl
    (List.replicate 150001 (completeInput 100)) 0 initialState rfl
  have hw : (50000 : Int) < 2 ^ (wideTarget.intBits - 1) := by
    norm_num [wideTarget]
  have h32 := run_schedule wideTarget hw l 0 { s with state := STATE_BEGIN } rfl
    (fun h => absurd h (by decide))
  have h32i := run_schedule wideTarget hw l 0 initialState rfl
    (fun h => absurd h (by decide))
  rw [Nat.zero_add] at h16 h32 h32i
  refine ⟨?_, ?_, h32.1, ?_, scheduleState_eq_end, by decide, by decide, by decide,
    loop_end t _ i rfl⟩
  · rw [h16]
    exact cycleState_ne_end _
  · rw [hrep, List.length_replicate]
    decide
  · rcases Nat.eq_zero_or_pos l.length with h | h
    · have hl : l = [] := List.length_eq_zero.mp h
      subst hl
      rfl
    · exact h32i.2 h

/-- C20: with `testIteration` a 16-bit two's-complement `int` whose
increment wraps modulo 2^16, every stored value lies in [-32768, 32767] and
is below `NUM_ITERATIONS`, so from `STATE_BEGIN`, for every sequence of
inputs, the loop state after `n` calls is `cycleState n`, never
`STATE_END`; every ACT tick finds `testIteration < NUM_ITERATIONS` and moves
to `STATE_SENSE`. -/
theorem C20_never_ends_on_16_bit_int (t : Target) (ht : t.intBits = 16)
    (s : RobotState) (hs : s.state = STATE_BEGIN)
    (l : List TickInput) (i : TickInput) :
    (run t s l).1.state ≠ STATE_END ∧
    (run t s l).1.state = cycleState l.length ∧
    (∀ x : Int, -32768 ≤ wrapInt 16 x ∧ wrapInt 16 x ≤ 32767 ∧
      wrapInt 16 x < NUM_ITERATIONS) ∧
    wrapInt 16 (32767 + 1) = -32768 ∧
    ((run t s l).1.state = STATE_ACT →
      (loop t (run t s l).1 i).1.testIteration < NUM_ITERATIONS ∧
      (loop t (run t s l).1 i).1.state = STATE_SENSE) := by
  have h16 := run_cycleState_16 t ht l 0 s hs
  rw [Nat.zero_add] at h16
  have hx : ∀ x : Int, -32768 ≤ wrapInt 16 x ∧ wrapInt 16 x ≤ 32767 ∧
      wrapInt 16 x < NUM_ITERATIONS := by
    intro x
    have h1 := wrapInt_16_lt x
    have h2 := wrapInt_16_ge x
    unfold NUM_ITERATIONS
    omega
  refine ⟨?_, h16, hx, by norm_num [wrapInt], ?_⟩
  · rw [h16]
    exact cycleState_ne_end _
  · intro ha
    obtain ⟨a1, a2⟩ := loop_act t (run t s l).1 i ha
    rw [a1, a2, ht]
    simp [(hx _).2.2]

/-- Witness for C20: from a `STATE_BEGIN` state with `testIteration = 41`,
three calls lead to `STATE_ACT` and the fourth to `STATE_SENSE`. -/
theorem C20_never_ends_on_16_bit_int_witness :
    atmega32u4.intBits = 16 ∧ dirtyBegin.state = STATE_BEGIN ∧
    (run atmega32u4 dirtyBegin [busyInput, busyInput, busyInput]).1.state = STATE_ACT ∧
    (run atmega32u4 dirtyBegin [busyInput, busyInput, busyInput]).1.state ≠ STATE_END ∧
    (loop atmega32u4 (run atmega32u4 dirtyBegin [busyInput, busyInput, busyInput]).1
      busyInput).1.state = STATE_SENSE :=
  ⟨rfl, rfl,
   (C20_never_ends_on_16_bit_int atmega32u4 rfl dirtyBegin rfl
     [busyInput, busyInput, busyInput] busyInput).2.1.trans (by decide),
   (C20_never_ends_on_16_bit_int atmega32u4 rfl dirtyBegin rfl
     [busyInput, busyInput, busyInput] busyInput).1,
   ((C20_never_ends_on_16_bit_int atmega32u4 rfl dirtyBegin rfl
     [busyInput, busyInput, busyInput] busyInput).2.2.2.2
     ((C20_never_ends_on_16_bit_int atmega32u4 rfl dirtyBegin rfl
       [busyInput, busyInput, busyInput] busyInput).2.1.trans (by decide))).2⟩

end Robot
